import Mathlib

/-!
# Snake-Web: the simulation layer of `src/main.cpp`

A shallow embedding of the game state (`struct Snake`, `struct Globals`) and of
the functions that change it: `loadHighScore`, `saveHighScore`, `consumeFruit`,
`addFruit`, `resetSnake`, `updateSnake`, `init` and `loop`.

Conventions of the embedding.

* `std::vector<Coord>` is `List Coord`; `v[k]` and `v.erase(v.begin() + k)`
  outside the vector are undefined behaviour in C++ and are the fault
  `Fault.outOfRange` here.
* `int` coordinates are `Int`: every coordinate the program computes is within
  a few hundred of the grid, so 32-bit overflow never occurs.  The unsigned
  32-bit clock arithmetic of `loop` and `resetSnake` is written out with
  `% 2 ^ 32`.
* The constants that `main.cpp` declares as `const` members of `Snake` and
  `Globals` are fields with the same default values; no function writes them.
* The outside world is explicit: `World.highScoreFile` and
  `World.fileWritable` say what opening `/save/highscore.txt` gives,
  `World.saveCalls` records every call of `saveHighScore` and `World.resets`
  counts the calls of `resetSnake`, the value of `SDL_GetTicks()` is the
  argument `clock` (one reading per frame), and the outcome of the `k`-th
  `distrib(gen)` of a frame is `rnd k`, counted by `World.draws`.
* Rendering, sound and font calls (`updateScore`, `updateHighScore`,
  `playSound`, `render`) do not touch the simulation state and are left out.
* The `for` loops whose bound is re-read on every iteration
  (`i < tiles.size()`, `j < fruit.size()`) carry a fuel argument; running out
  of it is the fault `Fault.outOfFuel`, which the theorems show never happens.
-/

namespace SnakeWeb

/-- The grid cell address `struct Coord`. -/
structure Coord where
  x : Int
  y : Int
deriving DecidableEq

/-- Ways in which the C++ program leaves defined behaviour, and fuel exhaustion
of the embedding. -/
inductive Fault where
  | outOfRange
  | emptyDistribution
  | outOfFuel
deriving DecidableEq

/-- The record `struct Snake`. `pauseUntil` holds the 32-bit pattern of the C++ `int`,
which is what the unsigned comparison in `loop` reads. -/
structure Snake where
  tempDirection : Coord := ⟨0, -1⟩
  direction : Coord := ⟨0, -1⟩
  tiles : List Coord := []
  lastUpdate : Nat := 0
  STARTING_LENGTH : Int := 4
  DEATH_DELAY : Int := 500
  hasDied : Bool := false
  pauseUntil : Nat := 0
deriving DecidableEq

/-- The simulation part of `struct Globals` (window, renderer and asset maps left out). -/
structure Globals where
  TILE_COUNT : Int := 40
  GAME_SPEED : Int := 50
  MAX_FRUITS : Int := 10
  quit : Bool := false
  pause : Bool := false
  snake : Snake := {}
  fruit : List Coord := []
deriving DecidableEq

/-- The global `glb` together with the part of the environment the simulation
reads and writes. -/
structure World where
  glb : Globals := {}
  highScoreFile : Option Int := none
  fileWritable : Bool := true
  saveCalls : List Int := []
  resets : Nat := 0
  draws : Nat := 0
deriving DecidableEq

/-- Keys that `loop` distinguishes. -/
inductive Keycode where
  | SDLK_UP
  | SDLK_DOWN
  | SDLK_LEFT
  | SDLK_RIGHT
  | SDLK_ESCAPE
  | other
deriving DecidableEq

/-- Events that `SDL_PollEvent` can deliver, by the cases of the `switch` in `loop`. -/
inductive Event where
  | SDL_QUIT
  | SDL_KEYDOWN (sym : Keycode)
  | other
deriving DecidableEq

/-- The direction constants used in `main.cpp`: `{0, -1}` is up. -/
def UP : Coord := ⟨0, -1⟩

def DOWN : Coord := ⟨0, 1⟩

def LEFT : Coord := ⟨-1, 0⟩

def RIGHT : Coord := ⟨1, 0⟩

/-- The exact opposite of a direction vector. -/
def opposite (d : Coord) : Coord := ⟨-d.x, -d.y⟩

/-- The value `SDL_GetTicks()` returns (a `Uint32`) when the millisecond clock reads `clock`. -/
def SDL_GetTicks (clock : Nat) : Nat := clock % 2 ^ 32

/-- The element access `v[k]` of a vector with an `int` index. -/
def index (v : List Coord) (k : Int) : Except Fault Coord :=
  if 0 ≤ k then
    match v[k.toNat]? with
    | some c => .ok c
    | none => .error .outOfRange
  else .error .outOfRange

/-- The world `w` with the snake's tiles, the fruit list and the draw counter replaced:
the only parts that fruit consumption and placement write. -/
def replaced (w : World) (tiles fruit : List Coord) (draws : Nat) : World :=
  { w with glb := { w.glb with snake := { w.glb.snake with tiles := tiles }, fruit := fruit },
           draws := draws }

/-- The call `loadHighScore()`: the stored number when the file opens, `0` otherwise. -/
def loadHighScore (w : World) : Int :=
  match w.highScoreFile with
  | some score => score
  | none => 0

/-- The call `saveHighScore(score)`: the file is overwritten when it opens for writing.
`saveCalls` records the call itself. -/
def saveHighScore (w : World) (score : Int) : World :=
  { w with
    highScoreFile := if w.fileWritable then some score else w.highScoreFile
    saveCalls := w.saveCalls ++ [score] }

/-- The call `consumeFruit(j)`: append a tail one step beyond the last tile, erase fruit `j`. -/
def consumeFruit (w : World) (j : Nat) : Except Fault World := do
  let tiles := w.glb.snake.tiles
  let max : Int := (tiles.length : Int) - 1
  let last ← index tiles max
  let prev ← index tiles (max - 1)
  let diff : Coord := ⟨last.x - prev.x, last.y - prev.y⟩
  let tiles := tiles ++ [⟨last.x + diff.x, last.y + diff.y⟩]
  if j < w.glb.fruit.length then
    .ok { w with glb := { w.glb with
            snake := { w.glb.snake with tiles := tiles }
            fruit := w.glb.fruit.eraseIdx j } }
  else .error .outOfRange

/-- The first two loops of `addFruit`: every cell `{i, j}` with `0 <= i, j < TILE_COUNT`,
`i` outermost. -/
def allCells (TILE_COUNT : Int) : List Coord :=
  (List.range TILE_COUNT.toNat).flatMap fun (i : Nat) =>
    (List.range TILE_COUNT.toNat).map fun (j : Nat) => (⟨(i : Int), (j : Int)⟩ : Coord)

/-- The third loop of `addFruit`: for each fruit in turn, `remove_if` its coordinate. -/
def removeFruit (possible fruit : List Coord) : List Coord :=
  fruit.foldl (fun p f => p.filter fun c => !(c.x == f.x && c.y == f.y)) possible

/-- The list `possible` of `addFruit` just before the random draw. -/
def possibleCells (w : World) : List Coord :=
  removeFruit (allCells w.glb.TILE_COUNT) w.glb.fruit

/-- The call `addFruit()`: `distrib(0, possible.size() - 1)` yields an index of
`possible` determined by the draw `rnd w.draws`; with `possible` empty the
distribution is built on `(0, -1)`, which is undefined. -/
def addFruit (rnd : Nat → Nat) (w : World) : Except Fault World :=
  let possible := possibleCells w
  if possible.length = 0 then .error .emptyDistribution
  else
    let randomIndex : Int := ((rnd w.draws % possible.length : Nat) : Int)
    match index possible randomIndex with
    | .ok c => .ok { w with glb := { w.glb with fruit := w.glb.fruit ++ [c] }, draws := w.draws + 1 }
    | .error e => .error e

/-- The loop `for (j = 0; j < fruit.size(); j++) { consumeFruit(j); addFruit(); }` of
`resetSnake`, from index `j`. -/
def resetFruitLoop (rnd : Nat → Nat) : Nat → Nat → World → Except Fault World
  | 0, _, _ => .error .outOfFuel
  | fuel + 1, j, w =>
    if j < w.glb.fruit.length then do
      let w ← consumeFruit w j
      let w ← addFruit rnd w
      resetFruitLoop rnd fuel (j + 1) w
    else .ok w

/-- The first block of `resetSnake`: after a death, set the respawn gate and decide
whether the final score is saved. -/
def resetScore (clock : Nat) (w : World) : World :=
  if w.glb.snake.hasDied then
    let w : World := { w with glb := { w.glb with snake := { w.glb.snake with
      pauseUntil := (SDL_GetTicks clock + w.glb.snake.DEATH_DELAY.toNat) % 2 ^ 32 } } }
    let score : Int := (w.glb.snake.tiles.length : Int) - 1
    let highScore := loadHighScore w
    if score > highScore then saveHighScore w score else w
  else w

/-- The last block of `resetSnake`: both directions up, `tiles` rebuilt as
`STARTING_LENGTH` cells going down from the centre of the grid. -/
def resetTiles (w : World) : World :=
  { w with glb := { w.glb with snake := { w.glb.snake with
      tempDirection := ⟨0, -1⟩
      direction := ⟨0, -1⟩
      tiles := (List.range w.glb.snake.STARTING_LENGTH.toNat).map fun (i : Nat) =>
        (⟨Int.tdiv w.glb.TILE_COUNT 2, Int.tdiv w.glb.TILE_COUNT 2 + (i : Int)⟩ : Coord) } } }

/-- The entry of `resetSnake()`: the call is recorded in `resets`. -/
def countReset (w : World) : World := { w with resets := w.resets + 1 }

/-- The call `resetSnake()`. -/
def resetSnake (rnd : Nat → Nat) (clock : Nat) (w : World) : Except Fault World := do
  let w := resetScore clock (countReset w)
  let w ← resetFruitLoop rnd (w.glb.fruit.length + 1) 0 w
  .ok (resetTiles w)

/-- The four `if`s after the move in `updateSnake`, on one coordinate: first the test
`>= TILE_COUNT`, then the test `< 0`. -/
def wrapCoordinate (TILE_COUNT : Int) (v : Int) : Int :=
  let v := if v ≥ TILE_COUNT then 0 else v
  if v < 0 then TILE_COUNT else v

/-- The wrap of both coordinates of a tile. -/
def wrap (TILE_COUNT : Int) (c : Coord) : Coord :=
  ⟨wrapCoordinate TILE_COUNT c.x, wrapCoordinate TILE_COUNT c.y⟩

/-- The shift or head move of iteration `i` of the first loop of `updateSnake`:
with `currentIndex = size - i - 1`, tile `currentIndex` takes the place of its
predecessor, and tile `0` moves by `direction`. -/
def moveTile (direction : Coord) (tiles : List Coord) (i : Nat) : Except Fault (List Coord) := do
  let currentIndex : Int := ((tiles.length : Int) - (i : Int)) - 1
  if currentIndex ≠ 0 then
    let p ← index tiles (currentIndex - 1)
    let _ ← index tiles currentIndex
    .ok (tiles.set currentIndex.toNat p)
  else
    let h ← index tiles currentIndex
    .ok (tiles.set currentIndex.toNat ⟨h.x + direction.x, h.y + direction.y⟩)

/-- One iteration of the first loop of `updateSnake`: move tile `size - i - 1`, wrap
tile `i`, and reset when tile `i` (`i != 0`) lies on tile `0`. -/
def updateSnakeStep (rnd : Nat → Nat) (clock : Nat) (w : World) (i : Nat) : Except Fault World := do
  let tiles ← moveTile w.glb.snake.direction w.glb.snake.tiles i
  let t ← index tiles (i : Int)
  let tiles := tiles.set i (wrap w.glb.TILE_COUNT t)
  let head ← index tiles 0
  let ti ← index tiles (i : Int)
  let w : World := { w with glb := { w.glb with snake := { w.glb.snake with tiles := tiles } } }
  if i ≠ 0 ∧ head.x = ti.x ∧ head.y = ti.y then
    resetSnake rnd clock
      { w with glb := { w.glb with snake := { w.glb.snake with hasDied := true } } }
  else .ok w

/-- The first loop of `updateSnake`, `for (i = 0; i < tiles.size(); i++)`, from index `i`. -/
def updateSnakeLoop (rnd : Nat → Nat) (clock : Nat) : Nat → Nat → World → Except Fault World
  | 0, _, _ => .error .outOfFuel
  | fuel + 1, i, w =>
    if i < w.glb.snake.tiles.length then do
      let w ← updateSnakeStep rnd clock w i
      updateSnakeLoop rnd clock fuel (i + 1) w
    else .ok w

/-- The second loop of `updateSnake`: a fruit under the head is consumed and replaced. -/
def eatLoop (rnd : Nat → Nat) : Nat → Nat → World → Except Fault World
  | 0, _, _ => .error .outOfFuel
  | fuel + 1, j, w =>
    if j < w.glb.fruit.length then do
      let head ← index w.glb.snake.tiles 0
      let f ← index w.glb.fruit (j : Int)
      if head.x = f.x ∧ head.y = f.y then
        let w ← consumeFruit w j
        let w ← addFruit rnd w
        eatLoop rnd fuel (j + 1) w
      else eatLoop rnd fuel (j + 1) w
    else .ok w

/-- The call `updateSnake()`. -/
def updateSnake (rnd : Nat → Nat) (clock : Nat) (w : World) : Except Fault World := do
  let fuel := w.glb.snake.tiles.length + w.glb.snake.STARTING_LENGTH.toNat + 1
  let w ← updateSnakeLoop rnd clock fuel 0 w
  let w ← eatLoop rnd (w.glb.fruit.length + 1) 0 w
  .ok { w with glb := { w.glb with snake := { w.glb.snake with lastUpdate := SDL_GetTicks clock } } }

/-- The loop `for (i = 0; i < MAX_FRUITS; i++) addFruit();` of `init`. -/
def addFruits (rnd : Nat → Nat) : Nat → World → Except Fault World
  | 0, w => .ok w
  | n + 1, w => do
    let w ← addFruit rnd w
    addFruits rnd n w

/-- The simulation part of `init()`, run on the freshly constructed `glb`. -/
def init (rnd : Nat → Nat) (clock : Nat) (w : World) : Except Fault World := do
  let w ← resetSnake rnd clock w
  addFruits rnd w.glb.MAX_FRUITS.toNat w

/-- The state of the program when `main` starts: `glb` as its member initialisers
leave it, and the high-score file as found. -/
def initialWorld (highScoreFile : Option Int) (fileWritable : Bool) : World :=
  { highScoreFile := highScoreFile, fileWritable := fileWritable }

/-- The `case SDL_KEYDOWN` of `loop`. -/
def keyDown (w : World) (sym : Keycode) : World :=
  let s := w.glb.snake
  if sym = .SDLK_UP ∧ s.direction.y ≠ 1 then
    { w with glb := { w.glb with snake := { s with tempDirection := ⟨0, -1⟩ } } }
  else if sym = .SDLK_DOWN ∧ s.direction.y ≠ -1 then
    { w with glb := { w.glb with snake := { s with tempDirection := ⟨0, 1⟩ } } }
  else if sym = .SDLK_LEFT ∧ s.direction.x ≠ 1 then
    { w with glb := { w.glb with snake := { s with tempDirection := ⟨-1, 0⟩ } } }
  else if sym = .SDLK_RIGHT ∧ s.direction.x ≠ -1 then
    { w with glb := { w.glb with snake := { s with tempDirection := ⟨1, 0⟩ } } }
  else if sym = .SDLK_ESCAPE then
    { w with glb := { w.glb with pause := !w.glb.pause } }
  else w

/-- The `switch (glb.event.type)` of `loop`. -/
def handleEvent (w : World) : Event → World
  | .SDL_QUIT => { w with glb := { w.glb with quit := true } }
  | .SDL_KEYDOWN sym => keyDown w sym
  | .other => w

/-- The `while (SDL_PollEvent(&glb.event))` of `loop`, on the events queued for the frame. -/
def pollEvents (w : World) (events : List Event) : World :=
  events.foldl handleEvent w

/-- The test of `loop` that lets a simulation tick run: the respawn gate has passed,
more than `GAME_SPEED` ticks went by since `lastUpdate` (unsigned 32-bit
subtraction), and the game is not paused. -/
def tickDue (clock : Nat) (w : World) : Bool :=
  decide (SDL_GetTicks clock > w.glb.snake.pauseUntil) &&
  decide ((SDL_GetTicks clock + 2 ^ 32 - w.glb.snake.lastUpdate % 2 ^ 32) % 2 ^ 32
            > w.glb.GAME_SPEED.toNat) &&
  !w.glb.pause

/-- The assignment `direction = tempDirection` of `loop`. -/
def commitDirection (w : World) : World :=
  { w with glb := { w.glb with snake := { w.glb.snake with direction := w.glb.snake.tempDirection } } }

/-- One call of `loop()` (one frame): the random draws of the frame are counted from `0`. -/
def loop (rnd : Nat → Nat) (clock : Nat) (events : List Event) (w : World) : Except Fault World :=
  let w := pollEvents { w with draws := 0 } events
  if tickDue clock w then updateSnake rnd clock (commitDirection w) else .ok w

/-- The states the program can be in between two frames: the state `init()` leaves,
and every state a frame leaves when run from such a state before `quit` is set. -/
inductive Reachable : World → Prop where
  | start (rnd : Nat → Nat) (clock : Nat) (file : Option Int) (writable : Bool) (w₀ w : World) :
      w₀ = initialWorld file writable → init rnd clock w₀ = .ok w → Reachable w
  | frame (rnd : Nat → Nat) (clock : Nat) (events : List Event) (w w' : World) :
      Reachable w → w.glb.quit = false → loop rnd clock events w = .ok w' → Reachable w'

/-- The directions committed (`direction = tempDirection`) by the frames of a run that
tick, in order; the run ends when `quit` cancels the main loop. -/
def committedDirections :
    List ((Nat → Nat) × Nat × List Event) → World → Except Fault (List Coord)
  | [], _ => .ok []
  | (rnd, clock, events) :: rest, w =>
    if w.glb.quit then .ok []
    else do
      let p := pollEvents { w with draws := 0 } events
      let w' ← loop rnd clock events w
      let ds ← committedDirections rest w'
      .ok (if tickDue clock p then p.glb.snake.tempDirection :: ds else ds)

/-! ## Invariants -/

/-- The four unit vectors a direction can be. -/
def IsDirection (d : Coord) : Prop := d = UP ∨ d = DOWN ∨ d = LEFT ∨ d = RIGHT

/-- The direction a key asks for, by the branches of `keyDown`. -/
def requestedDirection : Keycode → Option Coord
  | .SDLK_UP => some UP
  | .SDLK_DOWN => some DOWN
  | .SDLK_LEFT => some LEFT
  | .SDLK_RIGHT => some RIGHT
  | _ => none

/-- The invariant of the states between frames: the constants have their values, at
most as many fruit as cells, at least four tiles, and a buffered direction that is a
unit vector and not the opposite of the committed one. -/
def Inv (w : World) : Prop :=
  w.glb.TILE_COUNT = 40 ∧ w.glb.snake.STARTING_LENGTH = 4 ∧ w.glb.fruit.length ≤ 1600 ∧
  4 ≤ w.glb.snake.tiles.length ∧ IsDirection w.glb.snake.tempDirection ∧
  w.glb.snake.tempDirection ≠ opposite w.glb.snake.direction

/-- What `updateSnake` can do to the two directions: when `resetSnake` was not called
(`resets` unchanged) they are left as they were; when it was called (`resets` grew)
both are up. -/
def DirectionsKeptOrReset (w w' : World) : Prop :=
  (w'.resets = w.resets ∧ w'.glb.snake.direction = w.glb.snake.direction ∧
    w'.glb.snake.tempDirection = w.glb.snake.tempDirection) ∨
  (w.resets < w'.resets ∧ w'.glb.snake.direction = UP ∧ w'.glb.snake.tempDirection = UP)

/-! ## Concrete states and runs -/

/-- A run of six frames for the draws `819, 0, 0, ...` of `init`: the snake eats the
fruit in front of it, turns right, up, left and down into its own tail, and respawns. -/
def reversalRun : List ((Nat → Nat) × Nat × List Event) :=
  [ (fun _ => 0, 100, []),
    (fun _ => 0, 200, [.SDL_KEYDOWN .SDLK_RIGHT]),
    (fun _ => 0, 300, [.SDL_KEYDOWN .SDLK_UP]),
    (fun _ => 0, 400, [.SDL_KEYDOWN .SDLK_LEFT]),
    (fun _ => 0, 500, [.SDL_KEYDOWN .SDLK_DOWN]),
    (fun _ => 0, 1100, []) ]

/-- The draws of `init` in the run above: the first fruit lands on cell `(20,19)`, index
`20 * 40 + 19` of the grid, the others on the first free cells. -/
def reversalDraws : Nat → Nat := fun n => if n = 0 then 819 else 0

/-- The fruit list `init()` builds for the draws `reversalDraws`. -/
def initFruit : List Coord :=
  [⟨20, 19⟩, ⟨0, 0⟩, ⟨0, 1⟩, ⟨0, 2⟩, ⟨0, 3⟩, ⟨0, 4⟩, ⟨0, 5⟩, ⟨0, 6⟩, ⟨0, 7⟩, ⟨0, 8⟩]

/-- The state inside `init()` after `resetSnake()` and `k` calls of `addFruit()`, for the
draws `reversalDraws` and no high-score file. -/
def initStage (k : Nat) : World :=
  { glb := { snake := { tiles := [⟨20, 20⟩, ⟨20, 21⟩, ⟨20, 22⟩, ⟨20, 23⟩] }
             fruit := initFruit.take k }
    resets := 1
    draws := k }

/-- The state `init()` leaves for the draws `reversalDraws` and no high-score file. -/
def afterInit : World := initStage 10

/-- A snake of six tiles about to turn right into its own body (no fruit on the field). -/
def selfCrossing : World :=
  { glb := { snake := { tempDirection := RIGHT, direction := RIGHT
                        tiles := [⟨1, 1⟩, ⟨1, 2⟩, ⟨2, 2⟩, ⟨2, 1⟩, ⟨2, 0⟩, ⟨1, 0⟩] } } }

/-- A snake with its head on the top row, moving up. -/
def headOnTopRow : World :=
  { glb := { snake := { tiles := [⟨20, 0⟩, ⟨20, 1⟩, ⟨20, 2⟩, ⟨20, 3⟩] } } }

/-- A snake with its head on the last column `TILE_COUNT - 1 = 39`, moving right. -/
def headOnLastColumn : World :=
  { glb := { snake := { tempDirection := RIGHT, direction := RIGHT
                        tiles := [⟨39, 5⟩, ⟨38, 5⟩, ⟨37, 5⟩, ⟨36, 5⟩] } } }

/-- The scenario of the specification: a 4 by 4 grid, head at `(2,2)`, moving right. -/
def smallGrid : World :=
  { glb := { TILE_COUNT := 4
             snake := { tempDirection := RIGHT, direction := RIGHT
                        tiles := [⟨2, 2⟩, ⟨1, 2⟩, ⟨0, 2⟩, ⟨0, 3⟩] } } }

/-- The state in the middle of `init()`, after `resetSnake()` and before the first
`addFruit()`: the snake at the centre, no fruit. -/
def beforeFirstFruit : World :=
  { glb := { snake := { tiles := [⟨20, 20⟩, ⟨20, 21⟩, ⟨20, 22⟩, ⟨20, 23⟩] } }
    resets := 1 }

/-- A snake of five tiles that has just died, on a field of two fruit, with a stored
high score of `2`. -/
def diedWithTwoFruit : World :=
  { glb := { snake := { tiles := [⟨5, 5⟩, ⟨5, 6⟩, ⟨5, 7⟩, ⟨5, 8⟩, ⟨5, 9⟩], hasDied := true }
             fruit := [⟨3, 3⟩, ⟨7, 7⟩] }
    highScoreFile := some 2 }

/-- The fruit list during the run, once the fruit in front of the snake is eaten. -/
def cornerFruit : List Coord :=
  [⟨0, 0⟩, ⟨0, 1⟩, ⟨0, 2⟩, ⟨0, 3⟩, ⟨0, 4⟩, ⟨0, 5⟩, ⟨0, 6⟩, ⟨0, 7⟩, ⟨0, 8⟩, ⟨0, 9⟩]

/-- A state of the run before the death: both directions equal to `d`. -/
def alive (d : Coord) (tiles : List Coord) (lastUpdate draws : Nat) : World :=
  { glb := { snake := { tempDirection := d, direction := d, tiles := tiles, lastUpdate := lastUpdate }
             fruit := cornerFruit }
    resets := 1
    draws := draws }

/-- The states the first four frames of `reversalRun` leave. -/
def run1 : World := alive UP [⟨20, 19⟩, ⟨20, 20⟩, ⟨20, 21⟩, ⟨20, 22⟩, ⟨20, 23⟩] 100 1

def run2 : World := alive RIGHT [⟨21, 19⟩, ⟨20, 19⟩, ⟨20, 20⟩, ⟨20, 21⟩, ⟨20, 22⟩] 200 0

def run3 : World := alive UP [⟨21, 18⟩, ⟨21, 19⟩, ⟨20, 19⟩, ⟨20, 20⟩, ⟨20, 21⟩] 300 0

def run4 : World := alive LEFT [⟨20, 18⟩, ⟨21, 18⟩, ⟨21, 19⟩, ⟨20, 19⟩, ⟨20, 20⟩] 400 0

/-- The tiles when the fifth frame detects the collision: head and tail on `(20,19)`. -/
def collidedTiles : List Coord := [⟨20, 19⟩, ⟨20, 18⟩, ⟨21, 18⟩, ⟨21, 19⟩, ⟨20, 19⟩]

/-- A state inside `resetSnake()` in the fifth frame, the second call of the run, after
the score is saved. -/
def dead (tiles fruit : List Coord) (draws : Nat) : World :=
  { glb := { snake := { tempDirection := DOWN, direction := DOWN, tiles := tiles,
                        lastUpdate := 400, hasDied := true, pauseUntil := 1000 }
             fruit := fruit }
    highScoreFile := some 4
    saveCalls := [4]
    resets := 2
    draws := draws }

/-- The tails that the ten `consumeFruit` calls of that reset append. -/
def resetTails : List Coord :=
  [⟨19, 19⟩, ⟨18, 19⟩, ⟨17, 19⟩, ⟨16, 19⟩, ⟨15, 19⟩, ⟨14, 19⟩, ⟨13, 19⟩, ⟨12, 19⟩, ⟨11, 19⟩, ⟨10, 19⟩]

/-- The fruit list after `k` rounds of the consume-and-place loop of that reset. -/
def resetFruit : Nat → List Coord
  | 0 => cornerFruit
  | 1 => [⟨0, 1⟩, ⟨0, 2⟩, ⟨0, 3⟩, ⟨0, 4⟩, ⟨0, 5⟩, ⟨0, 6⟩, ⟨0, 7⟩, ⟨0, 8⟩, ⟨0, 9⟩, ⟨0, 0⟩]
  | 2 => [⟨0, 1⟩, ⟨0, 3⟩, ⟨0, 4⟩, ⟨0, 5⟩, ⟨0, 6⟩, ⟨0, 7⟩, ⟨0, 8⟩, ⟨0, 9⟩, ⟨0, 0⟩, ⟨0, 2⟩]
  | 3 => [⟨0, 1⟩, ⟨0, 3⟩, ⟨0, 5⟩, ⟨0, 6⟩, ⟨0, 7⟩, ⟨0, 8⟩, ⟨0, 9⟩, ⟨0, 0⟩, ⟨0, 2⟩, ⟨0, 4⟩]
  | 4 => [⟨0, 1⟩, ⟨0, 3⟩, ⟨0, 5⟩, ⟨0, 7⟩, ⟨0, 8⟩, ⟨0, 9⟩, ⟨0, 0⟩, ⟨0, 2⟩, ⟨0, 4⟩, ⟨0, 6⟩]
  | 5 => [⟨0, 1⟩, ⟨0, 3⟩, ⟨0, 5⟩, ⟨0, 7⟩, ⟨0, 9⟩, ⟨0, 0⟩, ⟨0, 2⟩, ⟨0, 4⟩, ⟨0, 6⟩, ⟨0, 8⟩]
  | 6 => [⟨0, 1⟩, ⟨0, 3⟩, ⟨0, 5⟩, ⟨0, 7⟩, ⟨0, 9⟩, ⟨0, 2⟩, ⟨0, 4⟩, ⟨0, 6⟩, ⟨0, 8⟩, ⟨0, 0⟩]
  | 7 => [⟨0, 1⟩, ⟨0, 3⟩, ⟨0, 5⟩, ⟨0, 7⟩, ⟨0, 9⟩, ⟨0, 2⟩, ⟨0, 6⟩, ⟨0, 8⟩, ⟨0, 0⟩, ⟨0, 4⟩]
  | 8 => [⟨0, 1⟩, ⟨0, 3⟩, ⟨0, 5⟩, ⟨0, 7⟩, ⟨0, 9⟩, ⟨0, 2⟩, ⟨0, 6⟩, ⟨0, 0⟩, ⟨0, 4⟩, ⟨0, 8⟩]
  | _ => [⟨0, 1⟩, ⟨0, 3⟩, ⟨0, 5⟩, ⟨0, 7⟩, ⟨0, 9⟩, ⟨0, 2⟩, ⟨0, 6⟩, ⟨0, 0⟩, ⟨0, 8⟩, ⟨0, 4⟩]

/-- The state after `k` rounds of the consume-and-place loop of that reset. -/
def turned (k : Nat) : World := dead (collidedTiles ++ resetTails.take k) (resetFruit k) k

/-- The state of the fifth frame when the collision is detected, `hasDied` just set. -/
def collided : World :=
  { glb := { snake := { tempDirection := DOWN, direction := DOWN, tiles := collidedTiles,
                        lastUpdate := 400, hasDied := true }
             fruit := cornerFruit }
    resets := 1 }

/-- A state of the run after the death: respawned, both directions up. -/
def respawned (tiles : List Coord) (lastUpdate draws : Nat) : World :=
  { glb := { snake := { tiles := tiles, lastUpdate := lastUpdate, hasDied := true,
                        pauseUntil := 1000 }
             fruit := resetFruit 10 }
    highScoreFile := some 4
    saveCalls := [4]
    resets := 2
    draws := draws }

/-- The states the fifth and the sixth frame leave. -/
def run5 : World := respawned [⟨20, 20⟩, ⟨20, 21⟩, ⟨20, 22⟩, ⟨20, 23⟩] 500 10

def run6 : World := respawned [⟨20, 19⟩, ⟨20, 20⟩, ⟨20, 21⟩, ⟨20, 22⟩] 1100 0

deriving instance DecidableEq for Except

/-! ## Vectors and the grid -/

theorem index_natCast (v : List Coord) (k : Nat) (h : k < v.length) :
    index v (k : Int) = .ok (v.get ⟨k, h⟩) := by
  simp [index, List.getElem?_eq_getElem h]

theorem index_ok_of_lt (v : List Coord) (k : Int) (h0 : 0 ≤ k) (h : k.toNat < v.length) :
    index v k = .ok (v.get ⟨k.toNat, h⟩) := by
  simp [index, h0, List.getElem?_eq_getElem h]

theorem mem_allCells (n : Int) (c : Coord) :
    c ∈ allCells n ↔ (0 ≤ c.x ∧ c.x < n) ∧ (0 ≤ c.y ∧ c.y < n) := by
  unfold allCells
  simp only [List.mem_flatMap, List.mem_range, List.mem_map]
  constructor
  · rintro ⟨i, hi, j, hj, rfl⟩
    simp only
    omega
  · rintro ⟨⟨hx0, hx⟩, hy0, hy⟩
    refine ⟨c.x.toNat, by omega, c.y.toNat, by omega, ?_⟩
    cases c
    simp only [Coord.mk.injEq]
    simp only at hx0 hy0
    omega

theorem length_flatMap_const {α β : Type} (l : List α) (f : α → List β) (m : Nat)
    (h : ∀ a, (f a).length = m) : (l.flatMap f).length = l.length * m := by
  induction l with
  | nil => simp
  | cons a l ih =>
    simp only [List.flatMap_cons, List.length_append, List.length_cons, ih, h]
    ring

theorem length_allCells (n : Int) : (allCells n).length = n.toNat * n.toNat := by
  unfold allCells
  rw [length_flatMap_const _ _ n.toNat (fun a => by simp)]
  simp

theorem nodup_allCells (n : Int) : (allCells n).Nodup := by
  unfold allCells
  rw [List.nodup_flatMap]
  refine ⟨?_, ?_⟩
  · intro i _
    refine (List.nodup_range _).map ?_
    intro a b hab
    simpa using hab
  · refine List.Pairwise.imp_of_mem ?_ (List.nodup_range _)
    intro a b _ _ hab c hca hcb
    simp only [List.mem_map, List.mem_range] at hca hcb
    obtain ⟨j, _, rfl⟩ := hca
    obtain ⟨j', _, h⟩ := hcb
    simp only [Coord.mk.injEq] at h
    omega

/-! ## Free cells, `addFruit` and `consumeFruit` -/

theorem sameCell_iff (c f : Coord) : (c.x == f.x && c.y == f.y) = true ↔ c = f := by
  cases c
  cases f
  simp

theorem mem_removeFruit (fruit possible : List Coord) (c : Coord) :
    c ∈ removeFruit possible fruit ↔ c ∈ possible ∧ c ∉ fruit := by
  unfold removeFruit
  induction fruit generalizing possible with
  | nil => simp
  | cons f fruit ih =>
    simp only [List.foldl_cons, ih, List.mem_filter, List.mem_cons, not_or, Bool.not_eq_true_eq_eq_false,
      Bool.not_eq_eq_eq_not, Bool.not_true]
    have := sameCell_iff c f
    constructor
    · rintro ⟨⟨h1, h2⟩, h3⟩
      refine ⟨h1, ?_, h3⟩
      intro hcf
      rw [this.mpr hcf] at h2
      cases h2
    · rintro ⟨h1, h2, h3⟩
      refine ⟨⟨h1, ?_⟩, h3⟩
      cases hb : (c.x == f.x && c.y == f.y)
      · rfl
      · exact absurd (this.mp hb) h2

theorem length_filter_ne (possible : List Coord) (f : Coord) (h : possible.Nodup) :
    possible.length ≤ (possible.filter fun c => !(c.x == f.x && c.y == f.y)).length + 1 := by
  induction possible with
  | nil => simp
  | cons a l ih =>
    rw [List.nodup_cons] at h
    by_cases haf : a = f
    · subst haf
      have hall : ∀ c ∈ l, (!(c.x == a.x && c.y == a.y)) = true := by
        intro c hc
        cases hb : (c.x == a.x && c.y == a.y)
        · rfl
        · have := (sameCell_iff c a).mp hb
          subst this
          exact absurd hc h.1
      have hself : (!(a.x == a.x && a.y == a.y)) = false := by simp
      simp only [List.filter_cons, hself, List.filter_eq_self.mpr hall, List.length_cons]
      simp
    · have hkeep : (!(a.x == f.x && a.y == f.y)) = true := by
        cases hb : (a.x == f.x && a.y == f.y)
        · rfl
        · exact absurd ((sameCell_iff a f).mp hb) haf
      have := ih h.2
      simp only [List.filter_cons, hkeep, if_true, List.length_cons]
      omega

theorem length_removeFruit (fruit possible : List Coord) (h : possible.Nodup) :
    possible.length ≤ (removeFruit possible fruit).length + fruit.length := by
  unfold removeFruit
  induction fruit generalizing possible with
  | nil => simp
  | cons f fruit ih =>
    simp only [List.foldl_cons, List.length_cons]
    have h1 := length_filter_ne possible f h
    have h2 := ih _ (List.Nodup.filter (fun c => !(c.x == f.x && c.y == f.y)) h)
    omega

theorem addFruit_eq (rnd : Nat → Nat) (w : World) (h : possibleCells w ≠ []) :
    ∃ c, c ∈ possibleCells w ∧
      addFruit rnd w =
        .ok { w with glb := { w.glb with fruit := w.glb.fruit ++ [c] }, draws := w.draws + 1 } := by
  have hlen : 0 < (possibleCells w).length := List.length_pos.mpr h
  have hlt : rnd w.draws % (possibleCells w).length < (possibleCells w).length := Nat.mod_lt _ hlen
  refine ⟨(possibleCells w).get ⟨_, hlt⟩, List.get_mem _ _ _, ?_⟩
  unfold addFruit
  simp only [index_natCast _ _ hlt]
  rw [if_neg (by omega)]

theorem possibleCells_ne_nil (w : World)
    (h : w.glb.fruit.length < (allCells w.glb.TILE_COUNT).length) : possibleCells w ≠ [] := by
  intro hnil
  have := length_removeFruit w.glb.fruit (allCells w.glb.TILE_COUNT) (nodup_allCells _)
  unfold possibleCells at hnil
  rw [hnil] at this
  simp at this
  omega

theorem consumeFruit_eq (w : World) (j : Nat) (pre : List Coord) (prev last : Coord)
    (ht : w.glb.snake.tiles = pre ++ [prev, last]) (hj : j < w.glb.fruit.length) :
    consumeFruit w j =
      .ok { w with glb := { w.glb with
              snake := { w.glb.snake with
                tiles := w.glb.snake.tiles ++
                  [⟨last.x + (last.x - prev.x), last.y + (last.y - prev.y)⟩] }
              fruit := w.glb.fruit.eraseIdx j } } := by
  have hlen : w.glb.snake.tiles.length = pre.length + 2 := by rw [ht]; simp
  have h1 : index w.glb.snake.tiles ((w.glb.snake.tiles.length : Int) - 1) = .ok last := by
    have hl : ((w.glb.snake.tiles.length : Int) - 1).toNat = pre.length + 1 := by omega
    unfold index
    rw [if_pos (by omega), hl, ht, List.getElem?_append_right (by omega)]
    simp
  have h2 : index w.glb.snake.tiles ((w.glb.snake.tiles.length : Int) - 1 - 1) = .ok prev := by
    have hl : ((w.glb.snake.tiles.length : Int) - 1 - 1).toNat = pre.length := by omega
    unfold index
    rw [if_pos (by omega), hl, ht, List.getElem?_append_right (by omega)]
    simp
  unfold consumeFruit
  simp only [h1, h2, bind, Except.bind, if_pos hj]

theorem exists_last_two (l : List Coord) (h : 2 ≤ l.length) :
    ∃ pre prev last, l = pre ++ [prev, last] := by
  induction l with
  | nil => simp at h
  | cons a l ih =>
    match l, ih with
    | [], _ => simp at h
    | [b], _ => exact ⟨[], a, b, rfl⟩
    | b :: c :: l, ih =>
      obtain ⟨pre, prev, last, hl⟩ := ih (by simp)
      exact ⟨a :: pre, prev, last, by rw [hl]; rfl⟩

/-! ## The consume-and-place loop of `resetSnake` -/

theorem replaced_replaced (w : World) (t t' f f' : List Coord) (d d' : Nat) :
    replaced (replaced w t f d) t' f' d' = replaced w t' f' d' := rfl

theorem replaced_self (w : World) :
    replaced w w.glb.snake.tiles w.glb.fruit w.draws = w := rfl

theorem consume_add (rnd : Nat → Nat) (w : World) (j : Nat)
    (h2 : 2 ≤ w.glb.snake.tiles.length) (hj : j < w.glb.fruit.length)
    (hc : w.glb.fruit.length ≤ (allCells w.glb.TILE_COUNT).length) :
    ∃ t c, c ∉ w.glb.fruit.eraseIdx j ∧ c ∈ allCells w.glb.TILE_COUNT ∧
      (consumeFruit w j >>= addFruit rnd) =
        .ok (replaced w (w.glb.snake.tiles ++ [t]) (w.glb.fruit.eraseIdx j ++ [c]) (w.draws + 1)) := by
  obtain ⟨pre, prev, last, ht⟩ := exists_last_two _ h2
  rw [consumeFruit_eq w j pre prev last ht hj]
  simp only [bind, Except.bind]
  have hne := possibleCells_ne_nil
    { w with glb := { w.glb with
        snake := { w.glb.snake with
          tiles := w.glb.snake.tiles ++
            [⟨last.x + (last.x - prev.x), last.y + (last.y - prev.y)⟩] }
        fruit := w.glb.fruit.eraseIdx j } }
    (by
      simp only [List.length_eraseIdx, hj, if_true]
      omega)
  obtain ⟨c, hc1, hc2⟩ := addFruit_eq rnd _ hne
  unfold possibleCells at hc1
  rw [mem_removeFruit] at hc1
  exact ⟨_, c, hc1.2, hc1.1, hc2⟩

theorem resetFruitLoop_eq (rnd : Nat → Nat) (fuel : Nat) :
    ∀ (j : Nat) (w : World), 2 ≤ w.glb.snake.tiles.length →
      w.glb.fruit.length ≤ (allCells w.glb.TILE_COUNT).length →
      j ≤ w.glb.fruit.length → w.glb.fruit.length < fuel + j →
      ∃ tiles fruit draws,
        resetFruitLoop rnd fuel j w = .ok (replaced w tiles fruit draws) ∧
        fruit.length = w.glb.fruit.length ∧ w.glb.snake.tiles.length ≤ tiles.length := by
  induction fuel with
  | zero =>
    intro j w _ _ hj hf
    omega
  | succ fuel ih =>
    intro j w h2 hc _ hf
    unfold resetFruitLoop
    by_cases hj : j < w.glb.fruit.length
    · rw [if_pos hj]
      obtain ⟨t, c, _, _, hca⟩ := consume_add rnd w j h2 hj hc
      have hlen : (w.glb.fruit.eraseIdx j ++ [c]).length = w.glb.fruit.length := by
        simp only [List.length_append, List.length_eraseIdx, hj, if_true, List.length_singleton]
        omega
      obtain ⟨tiles, fruit, draws, h1, h2', h3⟩ :=
        ih (j + 1) (replaced w (w.glb.snake.tiles ++ [t]) (w.glb.fruit.eraseIdx j ++ [c]) (w.draws + 1))
          (by simp [replaced]; omega) (by simpa [replaced, hlen] using hc)
          (by simp only [replaced, hlen]; omega) (by simp only [replaced, hlen]; omega)
      refine ⟨tiles, fruit, draws, ?_, ?_, ?_⟩
      · have hb : (consumeFruit w j >>= fun w => addFruit rnd w >>= fun w =>
            resetFruitLoop rnd fuel (j + 1) w) =
            ((consumeFruit w j >>= addFruit rnd) >>= fun w => resetFruitLoop rnd fuel (j + 1) w) := by
          cases consumeFruit w j <;> rfl
        show (consumeFruit w j >>= fun w => addFruit rnd w >>= fun w =>
            resetFruitLoop rnd fuel (j + 1) w) = _
        rw [hb, hca]
        simp only [bind, Except.bind]
        rw [h1, replaced_replaced]
      · rw [h2']
        simp only [replaced, hlen]
      · simp only [replaced, List.length_append, List.length_singleton] at h3
        omega
    · rw [if_neg hj]
      exact ⟨_, _, _, congrArg Except.ok (replaced_self w).symm, rfl, le_refl _⟩

theorem resetFruitLoop_step (rnd : Nat → Nat) (fuel j : Nat) (w w1 : World)
    (hj : j < w.glb.fruit.length) (h : (consumeFruit w j >>= addFruit rnd) = .ok w1) :
    resetFruitLoop rnd (fuel + 1) j w = resetFruitLoop rnd fuel (j + 1) w1 := by
  have hb : (consumeFruit w j >>= fun w => addFruit rnd w >>= fun w =>
      resetFruitLoop rnd fuel (j + 1) w) =
      ((consumeFruit w j >>= addFruit rnd) >>= fun w => resetFruitLoop rnd fuel (j + 1) w) := by
    cases consumeFruit w j <;> rfl
  rw [resetFruitLoop, if_pos hj]
  show (consumeFruit w j >>= fun w => addFruit rnd w >>= fun w =>
      resetFruitLoop rnd fuel (j + 1) w) = _
  rw [hb, h]
  rfl

theorem resetFruitLoop_done (rnd : Nat → Nat) (fuel j : Nat) (w : World)
    (hj : ¬ j < w.glb.fruit.length) : resetFruitLoop rnd (fuel + 1) j w = .ok w := by
  rw [resetFruitLoop, if_neg hj]

/-! ## `resetSnake`, and the claims on growth, placement, saving and layout -/

theorem resetScore_frame (clock : Nat) (w : World) :
    (resetScore clock w).glb.snake.tiles = w.glb.snake.tiles ∧
    (resetScore clock w).glb.fruit = w.glb.fruit ∧
    (resetScore clock w).glb.TILE_COUNT = w.glb.TILE_COUNT ∧
    (resetScore clock w).glb.snake.STARTING_LENGTH = w.glb.snake.STARTING_LENGTH ∧
    (resetScore clock w).glb.MAX_FRUITS = w.glb.MAX_FRUITS ∧
    (resetScore clock w).glb.snake.hasDied = w.glb.snake.hasDied ∧
    (resetScore clock w).resets = w.resets := by
  unfold resetScore
  by_cases hd : w.glb.snake.hasDied = true
  · rw [if_pos hd]
    dsimp only
    split <;> simp [saveHighScore]
  · rw [if_neg hd]
    simp

theorem resetScore_saveCalls (clock : Nat) (w : World) :
    (resetScore clock w).saveCalls =
      w.saveCalls ++
        (if w.glb.snake.hasDied = true ∧ (w.glb.snake.tiles.length : Int) - 1 > loadHighScore w
          then [(w.glb.snake.tiles.length : Int) - 1] else []) := by
  unfold resetScore
  by_cases hd : w.glb.snake.hasDied = true
  · rw [if_pos hd]
    dsimp only
    have hl : ∀ p : Nat, loadHighScore { w with glb := { w.glb with snake := { w.glb.snake with
        pauseUntil := p } } } = loadHighScore w := fun _ => rfl
    rw [hl]
    by_cases hs : (w.glb.snake.tiles.length : Int) - 1 > loadHighScore w
    · rw [if_pos hs, if_pos ⟨hd, hs⟩]
      rfl
    · rw [if_neg hs, if_neg (fun h => hs h.2)]
      simp
  · rw [if_neg hd, if_neg (fun h => hd h.1)]
    simp

theorem resetScore_countReset_frame (clock : Nat) (w : World) :
    (resetScore clock (countReset w)).glb.snake.tiles = w.glb.snake.tiles ∧
    (resetScore clock (countReset w)).glb.fruit = w.glb.fruit ∧
    (resetScore clock (countReset w)).glb.TILE_COUNT = w.glb.TILE_COUNT ∧
    (resetScore clock (countReset w)).glb.snake.STARTING_LENGTH = w.glb.snake.STARTING_LENGTH ∧
    (resetScore clock (countReset w)).glb.MAX_FRUITS = w.glb.MAX_FRUITS ∧
    (resetScore clock (countReset w)).glb.snake.hasDied = w.glb.snake.hasDied ∧
    (resetScore clock (countReset w)).resets = w.resets + 1 :=
  resetScore_frame clock (countReset w)

theorem resetSnake_eq (rnd : Nat → Nat) (clock : Nat) (w : World)
    (hfr : w.glb.fruit = [] ∨ 2 ≤ w.glb.snake.tiles.length)
    (hc : w.glb.fruit.length ≤ (allCells w.glb.TILE_COUNT).length) :
    ∃ tiles fruit draws,
      resetSnake rnd clock w =
        .ok (resetTiles (replaced (resetScore clock (countReset w)) tiles fruit draws)) ∧
      fruit.length = w.glb.fruit.length := by
  obtain ⟨ht, hf, hn, _⟩ := resetScore_countReset_frame clock w
  unfold resetSnake
  simp only [bind, Except.bind]
  by_cases h2 : 2 ≤ w.glb.snake.tiles.length
  · obtain ⟨tiles, fruit, draws, h, hl, _⟩ :=
      resetFruitLoop_eq rnd ((resetScore clock (countReset w)).glb.fruit.length + 1) 0
        (resetScore clock (countReset w))
        (by rw [ht]; exact h2) (by rw [hf, hn]; exact hc) (Nat.zero_le _) (by omega)
    rw [h]
    exact ⟨tiles, fruit, draws, rfl, by rw [hl, hf]⟩
  · have he : w.glb.fruit = [] := hfr.resolve_right h2
    refine ⟨(resetScore clock (countReset w)).glb.snake.tiles, [],
      (resetScore clock (countReset w)).draws, ?_, by simp [he]⟩
    have hr : replaced (resetScore clock (countReset w))
        (resetScore clock (countReset w)).glb.snake.tiles []
        (resetScore clock (countReset w)).draws = resetScore clock (countReset w) := by
      rw [← replaced_self (resetScore clock (countReset w)), hf, he]; rfl
    rw [hr]
    unfold resetFruitLoop
    simp [hf, he]

theorem resetTiles_layout (w : World) (hn : w.glb.TILE_COUNT = 40)
    (hs : w.glb.snake.STARTING_LENGTH = 4) :
    (resetTiles w).glb.snake.tiles = [⟨20, 20⟩, ⟨20, 21⟩, ⟨20, 22⟩, ⟨20, 23⟩] := by
  unfold resetTiles
  simp only [hn, hs]
  decide

/-- C7. For every snake of at least two tiles and every valid fruit index `j`,
`consumeFruit(j)` succeeds, keeps every previous tile in place and appends the one
tile `last + (last - secondToLast)`, so the length grows by exactly one; the fruit
list loses exactly the entry at index `j`, and nothing else changes. -/
theorem consumeFruit_growth (w : World) (j : Nat)
    (h2 : 2 ≤ w.glb.snake.tiles.length) (hj : j < w.glb.fruit.length) :
    ∃ pre prev last, w.glb.snake.tiles = pre ++ [prev, last] ∧
      consumeFruit w j =
        .ok (replaced w
          (w.glb.snake.tiles ++ [⟨last.x + (last.x - prev.x), last.y + (last.y - prev.y)⟩])
          (w.glb.fruit.eraseIdx j) w.draws) ∧
      (w.glb.snake.tiles ++
        [(⟨last.x + (last.x - prev.x), last.y + (last.y - prev.y)⟩ : Coord)]).length =
        w.glb.snake.tiles.length + 1 ∧
      (w.glb.fruit.eraseIdx j).length + 1 = w.glb.fruit.length := by
  obtain ⟨pre, prev, last, ht⟩ := exists_last_two _ h2
  refine ⟨pre, prev, last, ht, consumeFruit_eq w j pre prev last ht hj, by simp, ?_⟩
  simp only [List.length_eraseIdx, hj, if_true]
  omega

/-- C4, as amended. Whenever some grid cell holds no fruit, `addFruit()` succeeds for
every outcome of the random draw, appends exactly one coordinate to the fruit list,
and that coordinate differs from every fruit already in the list and lies in the
grid `0 <= x, y < TILE_COUNT`. Snake tiles are not taken into account. -/
theorem addFruit_avoids_fruit (rnd : Nat → Nat) (w : World)
    (h : ∃ c, c ∈ allCells w.glb.TILE_COUNT ∧ c ∉ w.glb.fruit) :
    ∃ c, addFruit rnd w = .ok (replaced w w.glb.snake.tiles (w.glb.fruit ++ [c]) (w.draws + 1)) ∧
      c ∉ w.glb.fruit ∧
      (0 ≤ c.x ∧ c.x < w.glb.TILE_COUNT) ∧ (0 ≤ c.y ∧ c.y < w.glb.TILE_COUNT) := by
  obtain ⟨c₀, h1, h2⟩ := h
  have hne : possibleCells w ≠ [] := by
    intro hnil
    have : c₀ ∈ possibleCells w := by
      unfold possibleCells
      exact (mem_removeFruit _ _ _).mpr ⟨h1, h2⟩
    rw [hnil] at this
    cases this
  obtain ⟨c, hc, he⟩ := addFruit_eq rnd w hne
  unfold possibleCells at hc
  rw [mem_removeFruit] at hc
  exact ⟨c, he, hc.2, (mem_allCells _ _).mp hc.1⟩

/-- C5. Every run of `resetSnake()` calls `saveHighScore` exactly when the reset
follows a death and the final score `tiles.size() - 1`, read before the tiles are
rebuilt, is strictly greater than what `loadHighScore()` returns; the argument is
that score; in the startup reset and when the score is not greater, no call is made. -/
theorem resetSnake_saves_iff (rnd : Nat → Nat) (clock : Nat) (w : World)
    (hfr : w.glb.fruit = [] ∨ 2 ≤ w.glb.snake.tiles.length)
    (hc : w.glb.fruit.length ≤ (allCells w.glb.TILE_COUNT).length) :
    ∃ w', resetSnake rnd clock w = .ok w' ∧
      w'.saveCalls =
        w.saveCalls ++
          (if w.glb.snake.hasDied = true ∧ (w.glb.snake.tiles.length : Int) - 1 > loadHighScore w
            then [(w.glb.snake.tiles.length : Int) - 1] else []) := by
  obtain ⟨tiles, fruit, draws, h, _⟩ := resetSnake_eq rnd clock w hfr hc
  exact ⟨_, h, resetScore_saveCalls clock (countReset w)⟩

/-- C9. In every state in which `resetSnake()` runs (no fruit yet, or a snake of at
least two tiles; the fruit leave a cell free), with `TILE_COUNT = 40` and
`STARTING_LENGTH = 4`, it returns with the tiles exactly
`[(20,20),(20,21),(20,22),(20,23)]` and both `direction` and `tempDirection` equal
to `(0,-1)`, whatever the tiles and directions were before. -/
theorem resetSnake_layout (rnd : Nat → Nat) (clock : Nat) (w : World)
    (hn : w.glb.TILE_COUNT = 40) (hs : w.glb.snake.STARTING_LENGTH = 4)
    (hfr : w.glb.fruit = [] ∨ 2 ≤ w.glb.snake.tiles.length)
    (hc : w.glb.fruit.length ≤ 1600) :
    ∃ w', resetSnake rnd clock w = .ok w' ∧
      w'.glb.snake.tiles = [⟨20, 20⟩, ⟨20, 21⟩, ⟨20, 22⟩, ⟨20, 23⟩] ∧
      w'.glb.snake.direction = UP ∧ w'.glb.snake.tempDirection = UP := by
  have hcells : (allCells w.glb.TILE_COUNT).length = 1600 := by
    rw [length_allCells, hn]; rfl
  obtain ⟨tiles, fruit, draws, h, _⟩ := resetSnake_eq rnd clock w hfr (by omega)
  obtain ⟨_, _, hn', hs', _⟩ := resetScore_countReset_frame clock w
  refine ⟨_, h, ?_, rfl, rfl⟩
  exact resetTiles_layout _ (by simpa [replaced, hn'] using hn) (by simpa [replaced, hs'] using hs)

/-! ## The movement loop keeps the invariant -/

theorem moveTile_eq (d : Coord) (tiles : List Coord) (i : Nat) (hi : i < tiles.length) :
    ∃ tiles', moveTile d tiles i = .ok tiles' ∧ tiles'.length = tiles.length := by
  unfold moveTile
  by_cases hz : ((tiles.length : Int) - (i : Int)) - 1 ≠ 0
  · have h1 : ((tiles.length : Int) - (i : Int) - 1 - 1).toNat < tiles.length := by omega
    have h2 : ((tiles.length : Int) - (i : Int) - 1).toNat < tiles.length := by omega
    simp only [hz, ne_eq, not_false_eq_true, if_true, bind, Except.bind,
      index_ok_of_lt tiles _ (by omega) h1, index_ok_of_lt tiles _ (by omega) h2]
    exact ⟨_, rfl, by simp⟩
  · have h2 : ((tiles.length : Int) - (i : Int) - 1).toNat < tiles.length := by omega
    simp only [hz, if_false, bind, Except.bind, index_ok_of_lt tiles _ (by omega) h2]
    exact ⟨_, rfl, by simp⟩

theorem resetSnake_inv (rnd : Nat → Nat) (clock : Nat) (w : World)
    (hn : w.glb.TILE_COUNT = 40) (hs : w.glb.snake.STARTING_LENGTH = 4)
    (hfr : w.glb.fruit = [] ∨ 2 ≤ w.glb.snake.tiles.length)
    (hc : w.glb.fruit.length ≤ 1600) :
    ∃ w', resetSnake rnd clock w = .ok w' ∧ Inv w' ∧ w'.glb.snake.tiles.length = 4 ∧
      w'.glb.fruit.length = w.glb.fruit.length ∧
      w'.glb.snake.direction = UP ∧ w'.glb.snake.tempDirection = UP ∧
      w'.glb.snake.hasDied = w.glb.snake.hasDied ∧ w'.glb.MAX_FRUITS = w.glb.MAX_FRUITS ∧
      w'.resets = w.resets + 1 := by
  have hcells : (allCells w.glb.TILE_COUNT).length = 1600 := by
    rw [length_allCells, hn]; rfl
  obtain ⟨tiles, fruit, draws, h, hl⟩ := resetSnake_eq rnd clock w hfr (by omega)
  obtain ⟨_, _, hn', hs', hm', hd', hr'⟩ := resetScore_countReset_frame clock w
  have hlay := resetTiles_layout (replaced (resetScore clock (countReset w)) tiles fruit draws)
    (by simpa [replaced, hn'] using hn) (by simpa [replaced, hs'] using hs)
  refine ⟨_, h, ⟨?_, ?_, ?_, ?_, ?_, ?_⟩, ?_, ?_, rfl, rfl, ?_, ?_, ?_⟩
  · simpa [resetTiles, replaced, hn'] using hn
  · simpa [resetTiles, replaced, hs'] using hs
  · simp only [resetTiles, replaced, hl]; exact hc
  · rw [hlay]; simp
  · exact Or.inl rfl
  · simp only [resetTiles]; decide
  · rw [hlay]; rfl
  · simp only [resetTiles, replaced, hl]
  · simpa [resetTiles, replaced] using hd'
  · simpa [resetTiles, replaced] using hm'
  · simpa [resetTiles, replaced] using hr'

theorem updateSnakeStep_inv (rnd : Nat → Nat) (clock : Nat) (w : World) (i : Nat)
    (hI : Inv w) (hi : i < w.glb.snake.tiles.length) :
    ∃ w', updateSnakeStep rnd clock w i = .ok w' ∧ Inv w' ∧
      w'.glb.snake.tiles.length ≤ w.glb.snake.tiles.length ∧ DirectionsKeptOrReset w w' := by
  obtain ⟨hn, hs, hf, ht, hd1, hd2⟩ := hI
  obtain ⟨tiles1, hm, hl1⟩ := moveTile_eq w.glb.snake.direction w.glb.snake.tiles i hi
  have hi1 : i < tiles1.length := by omega
  have hl2 : ∀ c, (tiles1.set i c).length = tiles1.length := fun c => by simp
  have h0 : ∀ c, 0 < (tiles1.set i c).length := fun c => by rw [hl2]; omega
  have hi2 : ∀ c, i < (tiles1.set i c).length := fun c => by rw [hl2]; omega
  unfold updateSnakeStep
  simp only [hm, bind, Except.bind, index_natCast _ _ hi1]
  have hz : ∀ c, index (tiles1.set i c) 0 = .ok ((tiles1.set i c).get ⟨0, h0 c⟩) :=
    fun c => index_natCast _ 0 (h0 c)
  simp only [hz, index_natCast _ _ (hi2 _)]
  split
  · obtain ⟨w', hr, hI', hl', _, hu1, hu2, _, _, hrs⟩ := resetSnake_inv rnd clock
      { w with glb := { w.glb with snake := { w.glb.snake with
          tiles := tiles1.set i (wrap w.glb.TILE_COUNT (tiles1.get ⟨i, hi1⟩)), hasDied := true } } }
      hn hs (Or.inr (by simp only [hl2]; omega)) hf
    exact ⟨w', hr, hI', by omega, Or.inr ⟨by rw [hrs]; exact Nat.lt_succ_self _, hu1, hu2⟩⟩
  · refine ⟨_, rfl, ⟨hn, hs, hf, ?_, hd1, hd2⟩, ?_, Or.inl ⟨rfl, rfl, rfl⟩⟩
    · simp only [hl2]; omega
    · simp only [hl2]; omega

theorem updateSnakeLoop_inv (rnd : Nat → Nat) (clock : Nat) (fuel : Nat) :
    ∀ (i : Nat) (w : World), Inv w → 1 ≤ fuel → w.glb.snake.tiles.length + 1 ≤ fuel + i →
      ∃ w', updateSnakeLoop rnd clock fuel i w = .ok w' ∧ Inv w' ∧ DirectionsKeptOrReset w w' := by
  induction fuel with
  | zero => intro i w _ h; omega
  | succ fuel ih =>
    intro i w hI _ hf
    unfold updateSnakeLoop
    by_cases hi : i < w.glb.snake.tiles.length
    · rw [if_pos hi]
      obtain ⟨w1, h1, hI1, hl1, hd1⟩ := updateSnakeStep_inv rnd clock w i hI hi
      obtain ⟨w2, h2, hI2, hd2⟩ := ih (i + 1) w1 hI1 (by omega) (by omega)
      simp only [h1, bind, Except.bind]
      refine ⟨w2, h2, hI2, ?_⟩
      rcases hd2 with ⟨hr2, ha, hb⟩ | ⟨hr2, ha, hb⟩
      · rcases hd1 with ⟨hr1, hc, hd⟩ | ⟨hr1, hc, hd⟩
        · exact Or.inl ⟨hr2.trans hr1, ha.trans hc, hb.trans hd⟩
        · exact Or.inr ⟨by omega, ha.trans hc, hb.trans hd⟩
      · rcases hd1 with ⟨hr1, _, _⟩ | ⟨hr1, _, _⟩
        · exact Or.inr ⟨by omega, ha, hb⟩
        · exact Or.inr ⟨by omega, ha, hb⟩
    · rw [if_neg hi]
      exact ⟨w, rfl, hI, Or.inl ⟨rfl, rfl, rfl⟩⟩

/-! ## Frames keep the invariant -/

theorem eatLoop_inv (rnd : Nat → Nat) (fuel : Nat) :
    ∀ (j : Nat) (w : World), Inv w → j ≤ w.glb.fruit.length → w.glb.fruit.length < fuel + j →
      ∃ w', eatLoop rnd fuel j w = .ok w' ∧ Inv w' ∧
        w'.glb.snake.direction = w.glb.snake.direction ∧
        w'.glb.snake.tempDirection = w.glb.snake.tempDirection ∧ w'.resets = w.resets := by
  induction fuel with
  | zero => intro j w _ hj hf; omega
  | succ fuel ih =>
    intro j w hI _ hf
    unfold eatLoop
    by_cases hj : j < w.glb.fruit.length
    · rw [if_pos hj]
      obtain ⟨hn, hs, hfl, ht, hd1, hd2⟩ := hI
      have hcells : (allCells w.glb.TILE_COUNT).length = 1600 := by
        rw [length_allCells, hn]; rfl
      have h0 : 0 < w.glb.snake.tiles.length := by omega
      have hz : index w.glb.snake.tiles 0 = .ok (w.glb.snake.tiles.get ⟨0, h0⟩) :=
        index_natCast _ 0 h0
      simp only [hz, index_natCast _ j hj, bind, Except.bind]
      split
      · obtain ⟨t, c, _, _, hca⟩ := consume_add rnd w j (by omega) hj (by omega)
        have hlen : (w.glb.fruit.eraseIdx j ++ [c]).length = w.glb.fruit.length := by
          simp only [List.length_append, List.length_eraseIdx, hj, if_true, List.length_singleton]
          omega
        obtain ⟨w2, h2, hI2, ha, hb, hrs⟩ := ih (j + 1)
          (replaced w (w.glb.snake.tiles ++ [t]) (w.glb.fruit.eraseIdx j ++ [c]) (w.draws + 1))
          ⟨hn, hs, by simp only [replaced, hlen]; exact hfl, by simp [replaced]; omega, hd1, hd2⟩
          (by simp only [replaced, hlen]; omega) (by simp only [replaced, hlen]; omega)
        have hb' : (consumeFruit w j >>= fun w => addFruit rnd w >>= fun w =>
            eatLoop rnd fuel (j + 1) w) =
            ((consumeFruit w j >>= addFruit rnd) >>= fun w => eatLoop rnd fuel (j + 1) w) := by
          cases consumeFruit w j <;> rfl
        refine ⟨w2, ?_, hI2, ha, hb, hrs⟩
        show (consumeFruit w j >>= fun w => addFruit rnd w >>= fun w =>
            eatLoop rnd fuel (j + 1) w) = _
        rw [hb', hca]
        exact h2
      · exact ih (j + 1) w ⟨hn, hs, hfl, ht, hd1, hd2⟩ (by omega) (by omega)
    · rw [if_neg hj]
      exact ⟨w, rfl, hI, rfl, rfl, rfl⟩

theorem updateSnake_inv (rnd : Nat → Nat) (clock : Nat) (w : World) (hI : Inv w) :
    ∃ w', updateSnake rnd clock w = .ok w' ∧ Inv w' ∧ DirectionsKeptOrReset w w' := by
  obtain ⟨w1, h1, hI1, hd1⟩ := updateSnakeLoop_inv rnd clock
    (w.glb.snake.tiles.length + w.glb.snake.STARTING_LENGTH.toNat + 1) 0 w hI (by omega) (by omega)
  obtain ⟨w2, h2, hI2, ha, hb, hrs⟩ := eatLoop_inv rnd (w1.glb.fruit.length + 1) 0 w1 hI1
    (Nat.zero_le _) (by omega)
  unfold updateSnake
  simp only [h1, h2, bind, Except.bind]
  refine ⟨_, rfl, hI2, ?_⟩
  rcases hd1 with ⟨hr1, hc, hd⟩ | ⟨hr1, hc, hd⟩
  · exact Or.inl ⟨hrs.trans hr1, ha.trans hc, hb.trans hd⟩
  · exact Or.inr ⟨by rw [← hrs] at hr1; exact hr1, ha.trans hc, hb.trans hd⟩

theorem keyDown_inv (w : World) (sym : Keycode) (hI : Inv w) :
    Inv (keyDown w sym) ∧ (keyDown w sym).glb.snake.direction = w.glb.snake.direction ∧
      (keyDown w sym).glb.quit = w.glb.quit ∧ (keyDown w sym).resets = w.resets := by
  obtain ⟨hn, hs, hfl, ht, hd1, hd2⟩ := hI
  unfold keyDown
  dsimp only
  split
  · rename_i h
    refine ⟨⟨hn, hs, hfl, ht, Or.inl rfl, ?_⟩, rfl, rfl, rfl⟩
    intro he
    apply h.2
    have := congrArg Coord.y he
    simp only [opposite] at this
    omega
  · split
    · rename_i h
      refine ⟨⟨hn, hs, hfl, ht, Or.inr (Or.inl rfl), ?_⟩, rfl, rfl, rfl⟩
      intro he
      apply h.2
      have := congrArg Coord.y he
      simp only [opposite] at this
      omega
    · split
      · rename_i h
        refine ⟨⟨hn, hs, hfl, ht, Or.inr (Or.inr (Or.inl rfl)), ?_⟩, rfl, rfl, rfl⟩
        intro he
        apply h.2
        have := congrArg Coord.x he
        simp only [opposite] at this
        omega
      · split
        · rename_i h
          refine ⟨⟨hn, hs, hfl, ht, Or.inr (Or.inr (Or.inr rfl)), ?_⟩, rfl, rfl, rfl⟩
          intro he
          apply h.2
          have := congrArg Coord.x he
          simp only [opposite] at this
          omega
        · split
          · exact ⟨⟨hn, hs, hfl, ht, hd1, hd2⟩, rfl, rfl, rfl⟩
          · exact ⟨⟨hn, hs, hfl, ht, hd1, hd2⟩, rfl, rfl, rfl⟩

theorem pollEvents_inv (events : List Event) :
    ∀ w : World, Inv w →
      Inv (pollEvents w events) ∧
        (pollEvents w events).glb.snake.direction = w.glb.snake.direction ∧
        (pollEvents w events).resets = w.resets := by
  induction events with
  | nil => intro w hI; exact ⟨hI, rfl, rfl⟩
  | cons e events ih =>
    intro w hI
    have hstep : Inv (handleEvent w e) ∧
        (handleEvent w e).glb.snake.direction = w.glb.snake.direction ∧
        (handleEvent w e).resets = w.resets := by
      cases e with
      | SDL_QUIT => exact ⟨hI, rfl, rfl⟩
      | SDL_KEYDOWN sym =>
        exact ⟨(keyDown_inv w sym hI).1, (keyDown_inv w sym hI).2.1, (keyDown_inv w sym hI).2.2.2⟩
      | other => exact ⟨hI, rfl, rfl⟩
    obtain ⟨h1, h2, h3⟩ := ih (handleEvent w e) hstep.1
    exact ⟨h1, h2.trans hstep.2.1, h3.trans hstep.2.2⟩

theorem isDirection_ne_opposite (d : Coord) (h : IsDirection d) : d ≠ opposite d := by
  rcases h with h | h | h | h <;> subst h <;> decide

theorem commitDirection_inv (w : World) (hI : Inv w) : Inv (commitDirection w) := by
  obtain ⟨hn, hs, hfl, ht, hd1, hd2⟩ := hI
  exact ⟨hn, hs, hfl, ht, hd1, isDirection_ne_opposite _ hd1⟩

theorem loop_inv (rnd : Nat → Nat) (clock : Nat) (events : List Event) (w : World) (hI : Inv w) :
    ∃ w', loop rnd clock events w = .ok w' ∧ Inv w' := by
  have hI0 : Inv { w with draws := 0 } := hI
  obtain ⟨hp, _, _⟩ := pollEvents_inv events _ hI0
  unfold loop
  dsimp only
  split
  · obtain ⟨w', h, hI', _⟩ := updateSnake_inv rnd clock _ (commitDirection_inv _ hp)
    exact ⟨w', h, hI'⟩
  · exact ⟨_, rfl, hp⟩

theorem addFruits_inv (rnd : Nat → Nat) (n : Nat) :
    ∀ w : World, Inv w → w.glb.fruit.length + n ≤ 1600 →
      ∃ w', addFruits rnd n w = .ok w' ∧ Inv w' := by
  induction n with
  | zero => intro w hI _; exact ⟨w, rfl, hI⟩
  | succ n ih =>
    intro w hI hle
    obtain ⟨hn, hs, hfl, ht, hd1, hd2⟩ := hI
    have hcells : (allCells w.glb.TILE_COUNT).length = 1600 := by
      rw [length_allCells, hn]; rfl
    obtain ⟨c, _, he⟩ := addFruit_eq rnd w (possibleCells_ne_nil w (by omega))
    obtain ⟨w', h, hI'⟩ := ih
      { w with glb := { w.glb with fruit := w.glb.fruit ++ [c] }, draws := w.draws + 1 }
      ⟨hn, hs, by simp; omega, ht, hd1, hd2⟩ (by simp; omega)
    unfold addFruits
    simp only [he, bind, Except.bind]
    exact ⟨w', h, hI'⟩

theorem init_inv (rnd : Nat → Nat) (clock : Nat) (file : Option Int) (writable : Bool) :
    ∃ w, init rnd clock (initialWorld file writable) = .ok w ∧ Inv w := by
  obtain ⟨w1, h1, hI1, _, hl, _, _, _, hm, _⟩ := resetSnake_inv rnd clock
    (initialWorld file writable)
    rfl rfl (Or.inl rfl) (by simp [initialWorld])
  have hm' : w1.glb.MAX_FRUITS.toNat = 10 := by rw [hm]; rfl
  have hl' : w1.glb.fruit.length = 0 := by rw [hl]; rfl
  obtain ⟨w2, h2, hI2⟩ := addFruits_inv rnd 10 w1 hI1 (by omega)
  unfold init
  simp only [h1, bind, Except.bind, hm']
  exact ⟨w2, h2, hI2⟩

theorem reachable_inv (w : World) (h : Reachable w) : Inv w := by
  induction h with
  | start rnd clock file writable w₀ w h0 hi =>
    subst h0
    obtain ⟨w', h', hI⟩ := init_inv rnd clock file writable
    rw [h'] at hi
    cases hi
    exact hI
  | frame rnd clock events w w' _ _ hl ih =>
    obtain ⟨w'', h', hI⟩ := loop_inv rnd clock events w ih
    rw [h'] at hl
    cases hl
    exact hI

/-! ## A run that ends in a death: evaluation in small steps -/

theorem addFruits_zero (rnd : Nat → Nat) (w : World) : addFruits rnd 0 w = .ok w := rfl

theorem addFruits_step (rnd : Nat → Nat) (n : Nat) (w w' : World) (r : Except Fault World)
    (h : addFruit rnd w = .ok w') (hr : addFruits rnd n w' = r) :
    addFruits rnd (n + 1) w = r := by
  rw [addFruits]
  simp only [h, bind, Except.bind]
  exact hr

theorem init_of (rnd : Nat → Nat) (clock n : Nat) (w w1 w2 : World)
    (h1 : resetSnake rnd clock w = .ok w1) (hn : w1.glb.MAX_FRUITS.toNat = n)
    (h2 : addFruits rnd n w1 = .ok w2) : init rnd clock w = .ok w2 := by
  unfold init
  simp only [h1, bind, Except.bind, hn]
  exact h2

theorem loop_of_tick (rnd : Nat → Nat) (clock : Nat) (events : List Event) (w wc : World)
    (r : Except Fault World)
    (ht : tickDue clock (pollEvents { w with draws := 0 } events) = true)
    (hc : commitDirection (pollEvents { w with draws := 0 } events) = wc)
    (hu : updateSnake rnd clock wc = r) : loop rnd clock events w = r := by
  unfold loop
  simp only [ht, if_true, hc]
  exact hu

theorem updateSnake_of (rnd : Nat → Nat) (clock fuel fuel2 : Nat) (w w1 w2 w3 : World)
    (hf : w.glb.snake.tiles.length + w.glb.snake.STARTING_LENGTH.toNat + 1 = fuel)
    (h1 : updateSnakeLoop rnd clock fuel 0 w = .ok w1)
    (hf2 : w1.glb.fruit.length + 1 = fuel2)
    (h2 : eatLoop rnd fuel2 0 w1 = .ok w2)
    (h3 : { w2 with glb := { w2.glb with snake := { w2.glb.snake with
              lastUpdate := SDL_GetTicks clock } } } = w3) :
    updateSnake rnd clock w = .ok w3 := by
  unfold updateSnake
  simp only [hf, h1, bind, Except.bind, hf2, h2, h3]

theorem updateSnakeLoop_step (rnd : Nat → Nat) (clock fuel i : Nat) (w w1 : World)
    (r : Except Fault World) (hi : i < w.glb.snake.tiles.length)
    (hs : updateSnakeStep rnd clock w i = .ok w1)
    (hr : updateSnakeLoop rnd clock fuel (i + 1) w1 = r) :
    updateSnakeLoop rnd clock (fuel + 1) i w = r := by
  rw [updateSnakeLoop, if_pos hi]
  simp only [hs, bind, Except.bind]
  exact hr

theorem updateSnakeLoop_done (rnd : Nat → Nat) (clock fuel i : Nat) (w : World)
    (hi : ¬ i < w.glb.snake.tiles.length) :
    updateSnakeLoop rnd clock (fuel + 1) i w = .ok w := by
  rw [updateSnakeLoop, if_neg hi]

theorem updateSnakeStep_of_collision (rnd : Nat → Nat) (clock i : Nat) (w wd : World)
    (tiles : List Coord) (t head ti : Coord) (r : Except Fault World)
    (hm : moveTile w.glb.snake.direction w.glb.snake.tiles i = .ok tiles)
    (ht : index tiles (i : Int) = .ok t)
    (h0 : index (tiles.set i (wrap w.glb.TILE_COUNT t)) 0 = .ok head)
    (hi : index (tiles.set i (wrap w.glb.TILE_COUNT t)) (i : Int) = .ok ti)
    (hcol : i ≠ 0 ∧ head.x = ti.x ∧ head.y = ti.y)
    (hd : { w with glb := { w.glb with snake := { w.glb.snake with
              tiles := tiles.set i (wrap w.glb.TILE_COUNT t), hasDied := true } } } = wd)
    (hr : resetSnake rnd clock wd = r) :
    updateSnakeStep rnd clock w i = r := by
  unfold updateSnakeStep
  simp only [hm, ht, h0, hi, bind, Except.bind]
  rw [if_pos hcol]
  rw [← hd] at hr
  exact hr

theorem resetSnake_of (rnd : Nat → Nat) (clock fuel : Nat) (w ws wl wr : World)
    (hs : resetScore clock (countReset w) = ws) (hf : ws.glb.fruit.length + 1 = fuel)
    (hl : resetFruitLoop rnd fuel 0 ws = .ok wl) (ht : resetTiles wl = wr) :
    resetSnake rnd clock w = .ok wr := by
  unfold resetSnake
  simp only [hs, hf, hl, bind, Except.bind, ht]

theorem resetFruitLoop_next (rnd : Nat → Nat) (fuel j : Nat) (w w1 : World)
    (r : Except Fault World) (hj : j < w.glb.fruit.length)
    (h : (consumeFruit w j >>= addFruit rnd) = .ok w1)
    (hr : resetFruitLoop rnd fuel (j + 1) w1 = r) :
    resetFruitLoop rnd (fuel + 1) j w = r := by
  rw [resetFruitLoop_step rnd fuel j w w1 hj h]
  exact hr

theorem committedDirections_tick (rnd : Nat → Nat) (clock : Nat) (events : List Event)
    (rest : List ((Nat → Nat) × Nat × List Event)) (w w' : World) (d : Coord) (ds : List Coord)
    (hq : w.glb.quit = false)
    (ht : tickDue clock (pollEvents { w with draws := 0 } events) = true)
    (hd : (pollEvents { w with draws := 0 } events).glb.snake.tempDirection = d)
    (hl : loop rnd clock events w = .ok w')
    (hr : committedDirections rest w' = .ok ds) :
    committedDirections ((rnd, clock, events) :: rest) w = .ok (d :: ds) := by
  rw [committedDirections]
  simp only [hq, hl, hr, bind, Except.bind, ht, hd]
  rfl

theorem bind_of_ok (x : Except Fault World) (f : World → Except Fault (List Coord)) (w : World)
    (r : Except Fault (List Coord)) (hx : x = .ok w) (hf : f w = r) : (x >>= f) = r := by
  rw [hx]
  exact hf

theorem init_reset : resetSnake reversalDraws 0 (initialWorld none true) = .ok (initStage 0) := by
  decide

set_option maxRecDepth 100000 in
set_option maxHeartbeats 0 in
theorem init_fruit_0 : addFruit reversalDraws (initStage 0) = .ok (initStage 1) := by decide

set_option maxRecDepth 100000 in
set_option maxHeartbeats 0 in
theorem init_fruit_1 : addFruit reversalDraws (initStage 1) = .ok (initStage 2) := by decide

set_option maxRecDepth 100000 in
set_option maxHeartbeats 0 in
theorem init_fruit_2 : addFruit reversalDraws (initStage 2) = .ok (initStage 3) := by decide

set_option maxRecDepth 100000 in
set_option maxHeartbeats 0 in
theorem init_fruit_3 : addFruit reversalDraws (initStage 3) = .ok (initStage 4) := by decide

set_option maxRecDepth 100000 in
set_option maxHeartbeats 0 in
theorem init_fruit_4 : addFruit reversalDraws (initStage 4) = .ok (initStage 5) := by decide

set_option maxRecDepth 100000 in
set_option maxHeartbeats 0 in
theorem init_fruit_5 : addFruit reversalDraws (initStage 5) = .ok (initStage 6) := by decide

set_option maxRecDepth 100000 in
set_option maxHeartbeats 0 in
theorem init_fruit_6 : addFruit reversalDraws (initStage 6) = .ok (initStage 7) := by decide

set_option maxRecDepth 100000 in
set_option maxHeartbeats 0 in
theorem init_fruit_7 : addFruit reversalDraws (initStage 7) = .ok (initStage 8) := by decide

set_option maxRecDepth 100000 in
set_option maxHeartbeats 0 in
theorem init_fruit_8 : addFruit reversalDraws (initStage 8) = .ok (initStage 9) := by decide

set_option maxRecDepth 100000 in
set_option maxHeartbeats 0 in
theorem init_fruit_9 : addFruit reversalDraws (initStage 9) = .ok (initStage 10) := by decide

theorem init_run : init reversalDraws 0 (initialWorld none true) = .ok afterInit :=
  init_of reversalDraws 0 10 _ (initStage 0) afterInit init_reset (by decide)
    (addFruits_step _ 9 _ _ _ init_fruit_0 (addFruits_step _ 8 _ _ _ init_fruit_1
      (addFruits_step _ 7 _ _ _ init_fruit_2 (addFruits_step _ 6 _ _ _ init_fruit_3
        (addFruits_step _ 5 _ _ _ init_fruit_4 (addFruits_step _ 4 _ _ _ init_fruit_5
          (addFruits_step _ 3 _ _ _ init_fruit_6 (addFruits_step _ 2 _ _ _ init_fruit_7
            (addFruits_step _ 1 _ _ _ init_fruit_8 (addFruits_step _ 0 _ _ _ init_fruit_9
              (addFruits_zero _ _)))))))))))


set_option maxRecDepth 100000 in
set_option maxHeartbeats 0 in
theorem frame_1 : loop (fun _ => 0) 100 [] afterInit = .ok run1 := by decide

theorem frame_2 : loop (fun _ => 0) 200 [.SDL_KEYDOWN .SDLK_RIGHT] run1 = .ok run2 := by decide

theorem frame_3 : loop (fun _ => 0) 300 [.SDL_KEYDOWN .SDLK_UP] run2 = .ok run3 := by decide

theorem frame_4 : loop (fun _ => 0) 400 [.SDL_KEYDOWN .SDLK_LEFT] run3 = .ok run4 := by decide

set_option maxRecDepth 100000 in
set_option maxHeartbeats 0 in
theorem reset_round_0 :
    (consumeFruit (turned 0) 0 >>= addFruit (fun _ => 0)) = .ok (turned 1) := by decide

set_option maxRecDepth 100000 in
set_option maxHeartbeats 0 in
theorem reset_round_1 :
    (consumeFruit (turned 1) 1 >>= addFruit (fun _ => 0)) = .ok (turned 2) := by decide

set_option maxRecDepth 100000 in
set_option maxHeartbeats 0 in
theorem reset_round_2 :
    (consumeFruit (turned 2) 2 >>= addFruit (fun _ => 0)) = .ok (turned 3) := by decide

set_option maxRecDepth 100000 in
set_option maxHeartbeats 0 in
theorem reset_round_3 :
    (consumeFruit (turned 3) 3 >>= addFruit (fun _ => 0)) = .ok (turned 4) := by decide

set_option maxRecDepth 100000 in
set_option maxHeartbeats 0 in
theorem reset_round_4 :
    (consumeFruit (turned 4) 4 >>= addFruit (fun _ => 0)) = .ok (turned 5) := by decide

set_option maxRecDepth 100000 in
set_option maxHeartbeats 0 in
theorem reset_round_5 :
    (consumeFruit (turned 5) 5 >>= addFruit (fun _ => 0)) = .ok (turned 6) := by decide

set_option maxRecDepth 100000 in
set_option maxHeartbeats 0 in
theorem reset_round_6 :
    (consumeFruit (turned 6) 6 >>= addFruit (fun _ => 0)) = .ok (turned 7) := by decide

set_option maxRecDepth 100000 in
set_option maxHeartbeats 0 in
theorem reset_round_7 :
    (consumeFruit (turned 7) 7 >>= addFruit (fun _ => 0)) = .ok (turned 8) := by decide

set_option maxRecDepth 100000 in
set_option maxHeartbeats 0 in
theorem reset_round_8 :
    (consumeFruit (turned 8) 8 >>= addFruit (fun _ => 0)) = .ok (turned 9) := by decide

set_option maxRecDepth 100000 in
set_option maxHeartbeats 0 in
theorem reset_round_9 :
    (consumeFruit (turned 9) 9 >>= addFruit (fun _ => 0)) = .ok (turned 10) := by decide

theorem reset_rounds : resetFruitLoop (fun _ => 0) 11 0 (turned 0) = .ok (turned 10) :=
  (resetFruitLoop_next _ 10 0 _ _ _ (by decide) reset_round_0
      (resetFruitLoop_next _ 9 1 _ _ _ (by decide) reset_round_1
      (resetFruitLoop_next _ 8 2 _ _ _ (by decide) reset_round_2
      (resetFruitLoop_next _ 7 3 _ _ _ (by decide) reset_round_3
      (resetFruitLoop_next _ 6 4 _ _ _ (by decide) reset_round_4
      (resetFruitLoop_next _ 5 5 _ _ _ (by decide) reset_round_5
      (resetFruitLoop_next _ 4 6 _ _ _ (by decide) reset_round_6
      (resetFruitLoop_next _ 3 7 _ _ _ (by decide) reset_round_7
      (resetFruitLoop_next _ 2 8 _ _ _ (by decide) reset_round_8
      (resetFruitLoop_next _ 1 9 _ _ _ (by decide) reset_round_9
      (resetFruitLoop_done _ 0 10 _ (by decide))))))))))))

theorem reset_in_frame_5 :
    resetSnake (fun _ => 0) 500 collided =
      .ok (respawned [⟨20, 20⟩, ⟨20, 21⟩, ⟨20, 22⟩, ⟨20, 23⟩] 400 10) :=
  resetSnake_of _ 500 11 collided (turned 0) (turned 10) _ (by decide) (by decide) reset_rounds
    (by decide)

theorem moves_in_frame_5 :
    updateSnakeLoop (fun _ => 0) 500 10 0
        (alive DOWN [⟨20, 18⟩, ⟨21, 18⟩, ⟨21, 19⟩, ⟨20, 19⟩, ⟨20, 20⟩] 400 0) =
      .ok (respawned [⟨20, 20⟩, ⟨20, 21⟩, ⟨20, 22⟩, ⟨20, 23⟩] 400 10) :=
  updateSnakeLoop_step _ 500 9 0 _
    (alive DOWN [⟨20, 18⟩, ⟨21, 18⟩, ⟨21, 19⟩, ⟨20, 19⟩, ⟨20, 19⟩] 400 0) _ (by decide) (by decide)
  (updateSnakeLoop_step _ 500 8 1 _
    (alive DOWN [⟨20, 18⟩, ⟨21, 18⟩, ⟨21, 19⟩, ⟨21, 19⟩, ⟨20, 19⟩] 400 0) _ (by decide) (by decide)
  (updateSnakeLoop_step _ 500 7 2 _
    (alive DOWN [⟨20, 18⟩, ⟨21, 18⟩, ⟨21, 18⟩, ⟨21, 19⟩, ⟨20, 19⟩] 400 0) _ (by decide) (by decide)
  (updateSnakeLoop_step _ 500 6 3 _
    (alive DOWN [⟨20, 18⟩, ⟨20, 18⟩, ⟨21, 18⟩, ⟨21, 19⟩, ⟨20, 19⟩] 400 0) _ (by decide) (by decide)
  (updateSnakeLoop_step _ 500 5 4
    (alive DOWN [⟨20, 18⟩, ⟨20, 18⟩, ⟨21, 18⟩, ⟨21, 19⟩, ⟨20, 19⟩] 400 0)
    (respawned [⟨20, 20⟩, ⟨20, 21⟩, ⟨20, 22⟩, ⟨20, 23⟩] 400 10) _ (by decide)
    (updateSnakeStep_of_collision _ 500 4
      (alive DOWN [⟨20, 18⟩, ⟨20, 18⟩, ⟨21, 18⟩, ⟨21, 19⟩, ⟨20, 19⟩] 400 0) collided
      collidedTiles ⟨20, 19⟩ ⟨20, 19⟩ ⟨20, 19⟩ _
      (by decide) (by decide) (by decide) (by decide) (by decide) (by decide) reset_in_frame_5)
    (updateSnakeLoop_done _ 500 4 5
      (respawned [⟨20, 20⟩, ⟨20, 21⟩, ⟨20, 22⟩, ⟨20, 23⟩] 400 10) (by decide))))))

theorem frame_5 : loop (fun _ => 0) 500 [.SDL_KEYDOWN .SDLK_DOWN] run4 = .ok run5 :=
  loop_of_tick _ 500 _ run4
    (alive DOWN [⟨20, 18⟩, ⟨21, 18⟩, ⟨21, 19⟩, ⟨20, 19⟩, ⟨20, 20⟩] 400 0) _ (by decide) (by decide)
    (updateSnake_of _ 500 10 11
      (alive DOWN [⟨20, 18⟩, ⟨21, 18⟩, ⟨21, 19⟩, ⟨20, 19⟩, ⟨20, 20⟩] 400 0)
      (respawned [⟨20, 20⟩, ⟨20, 21⟩, ⟨20, 22⟩, ⟨20, 23⟩] 400 10)
      (respawned [⟨20, 20⟩, ⟨20, 21⟩, ⟨20, 22⟩, ⟨20, 23⟩] 400 10) run5
      (by decide) moves_in_frame_5 (by decide) (by decide) (by decide))

theorem frame_6 : loop (fun _ => 0) 1100 [] run5 = .ok run6 := by decide

theorem reachable_afterInit : Reachable afterInit :=
  Reachable.start reversalDraws 0 none true _ afterInit rfl init_run

theorem commits_of_run :
    committedDirections reversalRun afterInit = .ok [UP, RIGHT, UP, LEFT, DOWN, UP] :=
  committedDirections_tick _ 100 [] _ afterInit run1 UP _ (by decide) (by decide) (by decide)
    frame_1
  (committedDirections_tick _ 200 [.SDL_KEYDOWN .SDLK_RIGHT] _ run1 run2 RIGHT _ (by decide)
    (by decide) (by decide) frame_2
  (committedDirections_tick _ 300 [.SDL_KEYDOWN .SDLK_UP] _ run2 run3 UP _ (by decide)
    (by decide) (by decide) frame_3
  (committedDirections_tick _ 400 [.SDL_KEYDOWN .SDLK_LEFT] _ run3 run4 LEFT _ (by decide)
    (by decide) (by decide) frame_4
  (committedDirections_tick _ 500 [.SDL_KEYDOWN .SDLK_DOWN] _ run4 run5 DOWN _ (by decide)
    (by decide) (by decide) frame_5
  (committedDirections_tick _ 1100 [] [] run5 run6 UP [] (by decide) (by decide) (by decide)
    frame_6 rfl)))))

/-! ## The claims on reachable states -/

/-- C6. In every state reachable from `init()` by frames of key events and
simulation ticks, for every outcome of the random fruit placement,
`STARTING_LENGTH` is 4 and the snake has at least 4 tiles; and every further frame
runs to completion without a fault and again leaves at least 4 tiles, also when a
collision runs `resetSnake()` inside the movement loop or a fruit is consumed. -/
theorem min_length_invariant (w : World) (h : Reachable w) :
    w.glb.snake.STARTING_LENGTH = 4 ∧ 4 ≤ w.glb.snake.tiles.length ∧
      ∀ (rnd : Nat → Nat) (clock : Nat) (events : List Event),
        ∃ w', loop rnd clock events w = .ok w' ∧ 4 ≤ w'.glb.snake.tiles.length := by
  have hI := reachable_inv w h
  refine ⟨hI.2.1, hI.2.2.2.1, ?_⟩
  intro rnd clock events
  obtain ⟨w', h', hI'⟩ := loop_inv rnd clock events w hI
  exact ⟨w', h', hI'.2.2.2.1⟩

theorem min_length_invariant_witness :
    Reachable afterInit ∧ afterInit.glb.snake.STARTING_LENGTH = 4 ∧
      4 ≤ afterInit.glb.snake.tiles.length ∧
      ∀ (rnd : Nat → Nat) (clock : Nat) (events : List Event),
        ∃ w', loop rnd clock events afterInit = .ok w' ∧ 4 ≤ w'.glb.snake.tiles.length :=
  ⟨reachable_afterInit, min_length_invariant afterInit reachable_afterInit⟩

theorem keyDown_opposite (w : World) (sym : Keycode)
    (h : requestedDirection sym = some (opposite w.glb.snake.direction)) : keyDown w sym = w := by
  cases sym <;> simp only [requestedDirection, Option.some.injEq, UP, DOWN, LEFT, RIGHT, opposite,
    Coord.mk.injEq, reduceCtorEq] at h
  · have hy : w.glb.snake.direction.y = 1 := by omega
    simp [keyDown, hy]
  · have hy : w.glb.snake.direction.y = -1 := by omega
    simp [keyDown, hy]
  · have hx : w.glb.snake.direction.x = 1 := by omega
    simp [keyDown, hx]
  · have hx : w.glb.snake.direction.x = -1 := by omega
    simp [keyDown, hx]

/-- C8, as amended. In every state reachable from `init()`: the buffered direction
`tempDirection` is not the exact opposite of the committed `direction`; a key asking
for the exact opposite of `direction` changes nothing; and in every frame, the events
leave `direction` alone and the buffered direction they produce, which is what a tick
commits, is not the opposite of `direction` as the previous tick left it. A frame
without a tick returns right after the events. A tick in which `resetSnake()` was not
called (the count `resets` of its calls is unchanged) leaves `direction` and
`tempDirection` equal to what it committed; a tick in which it was called (`resets`
grew) leaves both equal to `(0,-1)`. -/
theorem no_instant_reversal (w : World) (h : Reachable w) :
    w.glb.snake.tempDirection ≠ opposite w.glb.snake.direction ∧
    (∀ sym, requestedDirection sym = some (opposite w.glb.snake.direction) →
      (keyDown w sym).glb.snake.tempDirection = w.glb.snake.tempDirection) ∧
    (∀ (rnd : Nat → Nat) (clock : Nat) (events : List Event),
      (pollEvents { w with draws := 0 } events).glb.snake.direction = w.glb.snake.direction ∧
      (pollEvents { w with draws := 0 } events).glb.snake.tempDirection ≠
        opposite w.glb.snake.direction ∧
      ∃ w', loop rnd clock events w = .ok w' ∧
        (tickDue clock (pollEvents { w with draws := 0 } events) = false →
          w' = pollEvents { w with draws := 0 } events) ∧
        (tickDue clock (pollEvents { w with draws := 0 } events) = true →
          (w'.resets = w.resets ∧
            w'.glb.snake.direction =
              (pollEvents { w with draws := 0 } events).glb.snake.tempDirection ∧
            w'.glb.snake.tempDirection =
              (pollEvents { w with draws := 0 } events).glb.snake.tempDirection) ∨
          (w.resets < w'.resets ∧
            w'.glb.snake.direction = UP ∧ w'.glb.snake.tempDirection = UP))) := by
  have hI := reachable_inv w h
  refine ⟨hI.2.2.2.2.2, ?_, ?_⟩
  · intro sym hs
    rw [keyDown_opposite w sym hs]
  · intro rnd clock events
    have hI0 : Inv { w with draws := 0 } := hI
    obtain ⟨hp, hpd, hpr⟩ := pollEvents_inv events _ hI0
    have hpr' : (pollEvents { w with draws := 0 } events).resets = w.resets := hpr
    refine ⟨hpd, ?_, ?_⟩
    · have := hp.2.2.2.2.2
      rw [hpd] at this
      exact this
    · unfold loop
      dsimp only
      cases ht : tickDue clock (pollEvents { w with draws := 0 } events)
      · exact ⟨_, rfl, fun _ => rfl, fun hc => Bool.noConfusion hc⟩
      · obtain ⟨w', h', _, hd⟩ := updateSnake_inv rnd clock _ (commitDirection_inv _ hp)
        refine ⟨w', h', fun hc => Bool.noConfusion hc, fun _ => ?_⟩
        rcases hd with ⟨hr, ha, hb⟩ | ⟨hr, ha, hb⟩
        · exact Or.inl ⟨hr.trans hpr', ha, hb⟩
        · exact Or.inr ⟨by rw [← hpr']; exact hr, ha, hb⟩

theorem no_instant_reversal_witness :
    Reachable afterInit ∧
    afterInit.glb.snake.tempDirection ≠ opposite afterInit.glb.snake.direction ∧
    (keyDown afterInit .SDLK_DOWN).glb.snake.tempDirection = afterInit.glb.snake.tempDirection ∧
    (pollEvents { afterInit with draws := 0 } [.SDL_KEYDOWN .SDLK_DOWN,
        .SDL_KEYDOWN .SDLK_LEFT]).glb.snake.tempDirection ≠ opposite afterInit.glb.snake.direction ∧
    ∃ w', loop (fun _ => 0) 100 [.SDL_KEYDOWN .SDLK_LEFT] afterInit = .ok w' ∧
      (tickDue 100 (pollEvents { afterInit with draws := 0 } [.SDL_KEYDOWN .SDLK_LEFT]) = false →
        w' = pollEvents { afterInit with draws := 0 } [.SDL_KEYDOWN .SDLK_LEFT]) ∧
      (tickDue 100 (pollEvents { afterInit with draws := 0 } [.SDL_KEYDOWN .SDLK_LEFT]) = true →
        (w'.resets = afterInit.resets ∧
          w'.glb.snake.direction =
            (pollEvents { afterInit with draws := 0 }
              [.SDL_KEYDOWN .SDLK_LEFT]).glb.snake.tempDirection ∧
          w'.glb.snake.tempDirection =
            (pollEvents { afterInit with draws := 0 }
              [.SDL_KEYDOWN .SDLK_LEFT]).glb.snake.tempDirection) ∨
        (afterInit.resets < w'.resets ∧
          w'.glb.snake.direction = UP ∧ w'.glb.snake.tempDirection = UP)) :=
  ⟨reachable_afterInit, (no_instant_reversal afterInit reachable_afterInit).1,
    (no_instant_reversal afterInit reachable_afterInit).2.1 .SDLK_DOWN rfl,
    ((no_instant_reversal afterInit reachable_afterInit).2.2 (fun _ => 0) 100
      [.SDL_KEYDOWN .SDLK_DOWN, .SDL_KEYDOWN .SDLK_LEFT]).2.1,
    ((no_instant_reversal afterInit reachable_afterInit).2.2 (fun _ => 0) 100
      [.SDL_KEYDOWN .SDLK_LEFT]).2.2⟩

/-- C8, counterexample. From the state `init()` leaves for the draws `819, 0, 0, ...`,
six frames tick and commit up, right, up, left, down, up: the fifth tick ends in a
collision and `resetSnake()`, and the sixth commits up, the exact opposite of the down
committed by the fifth. -/
theorem reversal_after_reset :
    (init reversalDraws 0 (initialWorld none true) >>= committedDirections reversalRun) =
        .ok [UP, RIGHT, UP, LEFT, DOWN, UP] ∧
      UP = opposite DOWN := by
  exact ⟨bind_of_ok _ _ afterInit _ init_run commits_of_run, by decide⟩

/-! ## The claims settled at concrete states -/

/-- C1, at the failing input. For the snake `[(1,1),(1,2),(2,2),(2,1),(2,0),(1,0)]` moving
right, `updateSnake()` returns with the head `(2,1)` on top of tile 4, `hasDied` still
false and no reset; the next call does not notice the overlap either. -/
theorem self_collision_missed :
    (updateSnake (fun _ => 0) 100 selfCrossing).map
        (fun w => (w.glb.snake.hasDied, w.glb.snake.tiles)) =
      .ok (false, [⟨2, 1⟩, ⟨1, 1⟩, ⟨1, 2⟩, ⟨2, 2⟩, ⟨2, 1⟩, ⟨2, 0⟩]) ∧
    (updateSnake (fun _ => 0) 100 selfCrossing >>= updateSnake (fun _ => 0) 200).map
        (fun w => (w.glb.snake.hasDied, w.glb.snake.tiles)) =
      .ok (false, [⟨3, 1⟩, ⟨2, 1⟩, ⟨1, 1⟩, ⟨1, 2⟩, ⟨2, 2⟩, ⟨2, 1⟩]) := by
  decide

/-- C2, at the failing input. With the head at `(20,0)` moving up, `updateSnake()`
returns with the head at `(20,-1)`: the wrap of that call was applied to the tail. -/
theorem head_leaves_grid :
    (updateSnake (fun _ => 0) 100 headOnTopRow).map (fun w => w.glb.snake.tiles) =
      .ok [⟨20, -1⟩, ⟨20, 0⟩, ⟨20, 1⟩, ⟨20, 2⟩] := by
  decide

/-- C3, at the failing input. With the head at `(39,5)` moving right on the 40 by 40
grid, `updateSnake()` returns with the head at `(40,5)`, not `(0,5)`; on a 4 by 4 grid
the head starting at `(2,2)` is at `(3,2)` after one call and at `(4,2)` after two. -/
theorem head_not_wrapped_on_high_edge :
    (updateSnake (fun _ => 0) 100 headOnLastColumn).map (fun w => w.glb.snake.tiles.head?) =
      .ok (some ⟨40, 5⟩) ∧
    (updateSnake (fun _ => 0) 100 smallGrid).map (fun w => w.glb.snake.tiles.head?) =
      .ok (some ⟨3, 2⟩) ∧
    (updateSnake (fun _ => 0) 100 smallGrid >>= updateSnake (fun _ => 0) 200).map
        (fun w => w.glb.snake.tiles.head?) =
      .ok (some ⟨4, 2⟩) := by
  decide

set_option maxRecDepth 100000 in
set_option maxHeartbeats 0 in
/-- C4, counterexample. On the state `init()` is in after `resetSnake()`, with the snake
at the centre and no fruit yet, the draw `820` makes `addFruit()` place the fruit on
`(20,20)`, the cell of the snake's head. -/
theorem fruit_on_snake_head :
    (addFruit (fun _ => 820) beforeFirstFruit).map (fun w => w.glb.fruit) = .ok [⟨20, 20⟩] ∧
      beforeFirstFruit.glb.snake.tiles.head? = some ⟨20, 20⟩ := by
  decide

theorem addFruit_avoids_fruit_witness :
    (initStage 2).glb.fruit = [⟨20, 19⟩, ⟨0, 0⟩] ∧
    ∃ c, addFruit reversalDraws (initStage 2) =
        .ok (replaced (initStage 2) (initStage 2).glb.snake.tiles
          ((initStage 2).glb.fruit ++ [c]) ((initStage 2).draws + 1)) ∧
      c ∉ (initStage 2).glb.fruit ∧
      (0 ≤ c.x ∧ c.x < (initStage 2).glb.TILE_COUNT) ∧
      (0 ≤ c.y ∧ c.y < (initStage 2).glb.TILE_COUNT) :=
  ⟨by decide, addFruit_avoids_fruit reversalDraws (initStage 2)
    ⟨⟨0, 1⟩, (mem_allCells _ _).mpr (by decide), by decide⟩⟩

theorem consumeFruit_growth_witness :
    2 ≤ diedWithTwoFruit.glb.snake.tiles.length ∧ 1 < diedWithTwoFruit.glb.fruit.length ∧
    ∃ pre prev last, diedWithTwoFruit.glb.snake.tiles = pre ++ [prev, last] ∧
      consumeFruit diedWithTwoFruit 1 =
        .ok (replaced diedWithTwoFruit
          (diedWithTwoFruit.glb.snake.tiles ++
            [⟨last.x + (last.x - prev.x), last.y + (last.y - prev.y)⟩])
          (diedWithTwoFruit.glb.fruit.eraseIdx 1) diedWithTwoFruit.draws) ∧
      (diedWithTwoFruit.glb.snake.tiles ++
        [(⟨last.x + (last.x - prev.x), last.y + (last.y - prev.y)⟩ : Coord)]).length =
        diedWithTwoFruit.glb.snake.tiles.length + 1 ∧
      (diedWithTwoFruit.glb.fruit.eraseIdx 1).length + 1 = diedWithTwoFruit.glb.fruit.length :=
  ⟨by decide, by decide, consumeFruit_growth diedWithTwoFruit 1 (by decide) (by decide)⟩

theorem cells_of_default_grid : (allCells 40).length = 1600 := by
  rw [length_allCells]; rfl

theorem resetSnake_saves_iff_witness :
    ∃ w', resetSnake (fun _ => 0) 700 diedWithTwoFruit = .ok w' ∧ w'.saveCalls = [4] :=
  resetSnake_saves_iff (fun _ => 0) 700 diedWithTwoFruit (Or.inr (by decide))
    (by rw [show diedWithTwoFruit.glb.TILE_COUNT = 40 from rfl, cells_of_default_grid]; decide)

theorem resetSnake_layout_witness :
    ∃ w', resetSnake (fun _ => 0) 700 diedWithTwoFruit = .ok w' ∧
      w'.glb.snake.tiles = [⟨20, 20⟩, ⟨20, 21⟩, ⟨20, 22⟩, ⟨20, 23⟩] ∧
      w'.glb.snake.direction = UP ∧ w'.glb.snake.tempDirection = UP :=
  resetSnake_layout (fun _ => 0) 700 diedWithTwoFruit rfl rfl (Or.inr (by decide)) (by decide)

theorem head?_eraseIdx_append (l : List Coord) (j : Nat) (c : Coord) (hj : 1 ≤ j)
    (hl : j < l.length) : (l.eraseIdx j ++ [c]).head? = l.head? := by
  cases l with
  | nil => simp at hl
  | cons a t =>
    obtain ⟨k, rfl⟩ : ∃ k, j = k + 1 := ⟨j - 1, by omega⟩
    simp

theorem resetFruitLoop_head (rnd : Nat → Nat) (fuel : Nat) :
    ∀ (j : Nat) (w : World), 1 ≤ j → 2 ≤ w.glb.snake.tiles.length →
      w.glb.fruit.length ≤ (allCells w.glb.TILE_COUNT).length →
      j ≤ w.glb.fruit.length → w.glb.fruit.length < fuel + j →
      ∃ w', resetFruitLoop rnd fuel j w = .ok w' ∧ w'.glb.fruit.head? = w.glb.fruit.head? ∧
        w'.glb.fruit.length = w.glb.fruit.length := by
  induction fuel with
  | zero => intro j w _ _ _ hj hf; omega
  | succ fuel ih =>
    intro j w h1 h2 hc _ hf
    by_cases hj : j < w.glb.fruit.length
    · obtain ⟨t, c, _, _, hca⟩ := consume_add rnd w j h2 hj hc
      have hlen : (w.glb.fruit.eraseIdx j ++ [c]).length = w.glb.fruit.length := by
        simp only [List.length_append, List.length_eraseIdx, hj, if_true, List.length_singleton]
        omega
      obtain ⟨w', hr, hh, hl⟩ := ih (j + 1)
        (replaced w (w.glb.snake.tiles ++ [t]) (w.glb.fruit.eraseIdx j ++ [c]) (w.draws + 1))
        (by omega) (by simp [replaced]; omega) (by simpa [replaced, hlen] using hc)
        (by simp only [replaced, hlen]; omega) (by simp only [replaced, hlen]; omega)
      refine ⟨w', ?_, ?_, ?_⟩
      · rw [resetFruitLoop_step rnd fuel j w _ hj hca]
        exact hr
      · rw [hh]
        exact head?_eraseIdx_append _ j c h1 hj
      · rw [hl]
        exact hlen
    · exact ⟨w, resetFruitLoop_done rnd fuel j w hj, rfl, rfl⟩

/-- C10, at the failing inputs. For every reset of a snake of at least two tiles on a
field of at least two fruit `f0 :: f1 :: rest` (no more fruit than cells) and every
outcome of the random placements, `resetSnake()` succeeds, keeps the number of fruit,
and leaves `f1`, the second entry that was active before the reset, at the head of
the fruit list: the loop never erases it. -/
theorem resetSnake_keeps_second_fruit (rnd : Nat → Nat) (clock : Nat) (w : World)
    (f0 f1 : Coord) (rest : List Coord) (h2 : 2 ≤ w.glb.snake.tiles.length)
    (hf : w.glb.fruit = f0 :: f1 :: rest)
    (hc : w.glb.fruit.length ≤ (allCells w.glb.TILE_COUNT).length) :
    ∃ w', resetSnake rnd clock w = .ok w' ∧ w'.glb.fruit.head? = some f1 ∧
      w'.glb.fruit.length = w.glb.fruit.length := by
  obtain ⟨ht, hf', hn, _⟩ := resetScore_countReset_frame clock w
  have e0 : (resetScore clock (countReset w)).glb.fruit = f0 :: f1 :: rest := hf'.trans hf
  have hlen0 : (resetScore clock (countReset w)).glb.fruit.length = rest.length + 2 := by
    rw [e0]; simp
  have hlenw : w.glb.fruit.length = rest.length + 2 := by rw [hf]; simp
  obtain ⟨t0, c0, _, _, hs0⟩ := consume_add rnd (resetScore clock (countReset w)) 0
    (by rw [ht]; exact h2) (by omega) (by rw [hf', hn]; exact hc)
  have hfl : ((resetScore clock (countReset w)).glb.fruit.eraseIdx 0 ++ [c0]).length =
      rest.length + 2 := by
    rw [e0]; simp
  obtain ⟨w1, hr, hh, hl⟩ := resetFruitLoop_head rnd (rest.length + 2) 1
    (replaced (resetScore clock (countReset w))
      ((resetScore clock (countReset w)).glb.snake.tiles ++ [t0])
      ((resetScore clock (countReset w)).glb.fruit.eraseIdx 0 ++ [c0])
      ((resetScore clock (countReset w)).draws + 1))
    (le_refl 1)
    (by simp only [replaced, List.length_append, List.length_singleton]; rw [ht]; omega)
    (by
      simp only [replaced, hfl]
      rw [hn]
      omega)
    (by simp only [replaced, hfl]; omega) (by simp only [replaced, hfl]; omega)
  refine ⟨resetTiles w1, ?_, ?_, ?_⟩
  · unfold resetSnake
    simp only [bind, Except.bind, hlen0]
    rw [resetFruitLoop_step rnd _ 0 _ _ (by omega) hs0, hr]
  · show w1.glb.fruit.head? = some f1
    rw [hh]
    simp [replaced, e0]
  · show w1.glb.fruit.length = w.glb.fruit.length
    rw [hl]
    simp only [replaced, hfl]
    omega

theorem resetSnake_keeps_second_fruit_witness :
    ∃ w', resetSnake (fun _ => 0) 500 collided = .ok w' ∧ w'.glb.fruit.head? = some ⟨0, 1⟩ ∧
      w'.glb.fruit.length = collided.glb.fruit.length :=
  resetSnake_keeps_second_fruit (fun _ => 0) 500 collided ⟨0, 0⟩ ⟨0, 1⟩
    [⟨0, 2⟩, ⟨0, 3⟩, ⟨0, 4⟩, ⟨0, 5⟩, ⟨0, 6⟩, ⟨0, 7⟩, ⟨0, 8⟩, ⟨0, 9⟩] (by decide) rfl
    (by rw [show collided.glb.TILE_COUNT = 40 from rfl, cells_of_default_grid]; decide)

end SnakeWeb
